import Mathlib

/-! # mysql-operator: a shallow embedding of the reconciliation engine

The Go controller (`internal/controller/*.go`, `api/v1/mysqlcluster_types.go`) is
translated function by function.  Conventions:

* a Go `string` is an immutable byte sequence; it is modelled as the list of its
  byte values (`GoString`), so `len` is `List.length` and `<`, `>` are the
  byte-wise lexicographic comparison `strLess`;
* a Go `map[string]string` is an association list read with `mapGet` and written
  with `mapSet`; a map that the code tests against `nil` is an `Option` of it;
* pointers to records are modelled by value; in-place mutation is modelled by
  returning the mutated record;
* `int32` values are integers, wrapped with `wrap32` after every arithmetic step;
* calls to the API server are outcomes supplied by the caller (`none` is success),
  and every call issued is recorded in the outcome of the function.
-/

namespace MysqlOperator

/-! ## Strings and maps -/

/-- A Go string: the list of its bytes. -/
abbrev GoString := List Nat

/-- The bytes of an ASCII literal of the source. -/
def str (s : String) : GoString := s.toList.map Char.toNat

/-- Go's `a < b` on strings: byte-wise lexicographic, a proper prefix is smaller. -/
def strLess : GoString → GoString → Bool
  | [], [] => false
  | [], _ :: _ => true
  | _ :: _, [] => false
  | a :: as, b :: bs => if a < b then true else if b < a then false else strLess as bs

/-- A non-nil Go `map[string]string`. -/
abbrev StringMap := List (GoString × GoString)

/-- The two-valued read `v, ok := m[k]`. -/
def mapGet (m : StringMap) (k : GoString) : Option GoString := m.lookup k

/-- The write `m[k] = v`. -/
def mapSet (m : StringMap) (k v : GoString) : StringMap :=
  (k, v) :: m.filter (fun kv => kv.1 != k)

/-- The one-valued read `m[k]`: the zero value `""` when the key is absent. -/
def mapIndex (m : StringMap) (k : GoString) : GoString := (mapGet m k).getD []

/-! ## Errors -/

/-- Go `error` values.  `ErrHA` is the package-level sentinel of `reconcile_roles.go`;
`notFound` is the API server's not-found status error; `external` is any other error
produced by the API client or the database driver; `errorf` is `fmt.Errorf` without a
wrapped cause; `wrap` is `fmt.Errorf("... %w", cause)`. -/
inductive GoError where
  | ErrHA
  | notFound
  | external (code : Nat)
  | errorf (msg : String)
  | wrap (msg : String) (cause : GoError)
  deriving DecidableEq, Repr

/-- The call `errors.Is(err, ErrHA)`: walks the chain of wrapped causes. -/
def GoError.isErrHA : GoError → Bool
  | .ErrHA => true
  | .notFound => false
  | .external _ => false
  | .errorf _ => false
  | .wrap _ cause => cause.isErrHA

/-- The call `errors.IsNotFound(err)` of apimachinery: looks through wrapped causes. -/
def GoError.isNotFound : GoError → Bool
  | .ErrHA => false
  | .notFound => true
  | .external _ => false
  | .errorf _ => false
  | .wrap _ cause => cause.isNotFound

/-! ## Orchestrator objects (the fields the controller reads or writes) -/

/-- The type `corev1.PodCondition`. -/
structure PodCondition where
  Typ : GoString
  Status : GoString
  deriving DecidableEq, Repr

/-- The type `corev1.PodStatus`. -/
structure CorePodStatus where
  Phase : GoString
  Conditions : List PodCondition
  PodIP : GoString
  deriving DecidableEq, Repr

/-- The type `corev1.Pod`.  `DeletionTimestamp` is a pointer (`none` is `nil`).  Every pod
of a snapshot was listed by the label selector `app=<cluster>`, so its label map is
allocated. -/
structure Pod where
  Name : GoString
  Namespace : GoString
  Labels : StringMap
  DeletionTimestamp : Option Nat
  Status : CorePodStatus
  deriving DecidableEq, Repr

/-- Constant `corev1.PodRunning`. -/
def PodRunning : GoString := str "Running"
/-- Constant `corev1.PodReady`. -/
def PodReady : GoString := str "Ready"
/-- Constant `corev1.ConditionTrue`. -/
def ConditionTrue : GoString := str "True"

/-- The label key `"role"`. -/
def roleKey : GoString := str "role"
/-- The label value `"master"`. -/
def master : GoString := str "master"
/-- The label value `"slave"`. -/
def slave : GoString := str "slave"

/-- The type `PodInfo` of `mysqlcluster_controller.go`. -/
structure PodInfo where
  Pod : Pod
  Role : GoString
  IsReady : Bool
  IsConnectable : Bool
  GTID : GoString
  deriving DecidableEq, Repr

/-- The type `ClusterSnapshot` of `mysqlcluster_controller.go`. -/
structure ClusterSnapshot where
  RootPassword : GoString
  ReplPassword : GoString
  Pods : List PodInfo
  deriving DecidableEq, Repr

/-! ## Machine integers and formatting -/

/-- The value of an `int32` after an arithmetic step: two's-complement wrap-around. -/
def wrap32 (x : Int) : Int := (x + 2147483648) % 4294967296 - 2147483648

/-- The verb `%d` of `fmt.Sprintf`: decimal digits, with a leading `-` when negative. -/
def formatInt (n : Int) : GoString :=
  if n < 0 then 45 :: (Nat.toDigits 10 n.natAbs).map Char.toNat
  else (Nat.toDigits 10 n.toNat).map Char.toNat

/-- The call `fmt.Sprintf("%d/%d", a, b)`. -/
def sprintfRatio (a b : Int) : GoString := formatInt a ++ 47 :: formatInt b

/-- The method `IsZero` of `*metav1.Time`: a nil pointer or the zero instant.  Instants are
natural numbers, `0` being the zero instant. -/
def timeIsZero : Option Nat → Bool
  | none => true
  | some t => t == 0

/-! ## The custom resource: `api/v1/mysqlcluster_types.go` -/

/-- Constant `MysqlClusterPhaseTerminating`. -/
def MysqlClusterPhaseTerminating : GoString := str "Terminating"
/-- Constant `MysqlClusterPhasePending`. -/
def MysqlClusterPhasePending : GoString := str "Pending"
/-- Constant `MysqlClusterPhaseDegraded`. -/
def MysqlClusterPhaseDegraded : GoString := str "Degraded"
/-- Constant `MysqlClusterPhaseInitializing`. -/
def MysqlClusterPhaseInitializing : GoString := str "Initializing"
/-- Constant `MysqlClusterPhaseRunning`. -/
def MysqlClusterPhaseRunning : GoString := str "Running"
/-- Constant `MysqlClusterPhaseFailed`. -/
def MysqlClusterPhaseFailed : GoString := str "Failed"

/-- The type `PodStatus` of the custom resource. -/
structure PodStatus where
  Name : GoString
  Role : GoString
  IsReady : Bool
  IsConnectable : Bool
  deriving DecidableEq, Repr

/-- The type `MysqlClusterStatus`.  `Phase` is a string type; the two counters are `int32`;
a `metav1.Condition` is kept as an uninterpreted string. -/
structure MysqlClusterStatus where
  Phase : GoString
  MasterReplicas : Int
  SlaveReplicas : Int
  MasterDisplay : GoString
  SlaveDisplay : GoString
  CurrentMaster : GoString
  Pods : List PodStatus
  Conditions : List GoString
  deriving DecidableEq, Repr

/-- The type `MysqlClusterSpec`: `Replicas` is a `*int32` (`none` is `nil`); storage and
resource requirements are kept as uninterpreted strings. -/
structure MysqlClusterSpec where
  Image : GoString
  Replicas : Option Int
  Storage : GoString
  Resources : GoString
  SecretName : GoString
  deriving DecidableEq, Repr

/-- The type `MysqlCluster`, with the fields of its object metadata that the controller
reads. -/
structure MysqlCluster where
  Name : GoString
  Namespace : GoString
  DeletionTimestamp : Option Nat
  Spec : MysqlClusterSpec
  Status : MysqlClusterStatus
  deriving DecidableEq, Repr

/-! ## Status writer: `update_status.go` -/

/-- The variables that the first loop of `updateStatus` updates. -/
structure StatusAcc where
  masterCount : Int
  slaveCount : Int
  masterNode : Option PodInfo
  podsStatus : List PodStatus
  deriving DecidableEq, Repr

/-- One iteration of the first loop of `updateStatus`. -/
def statusStep (acc : StatusAcc) (pod : PodInfo) : StatusAcc :=
  let acc1 : StatusAcc :=
    if pod.IsConnectable && pod.Role == master then
      { acc with masterCount := wrap32 (acc.masterCount + 1), masterNode := some pod }
    else acc
  let acc2 : StatusAcc :=
    if pod.IsConnectable && pod.Role == slave then
      { acc1 with slaveCount := wrap32 (acc1.slaveCount + 1) }
    else acc1
  { acc2 with podsStatus := acc2.podsStatus ++
      [{ Name := pod.Pod.Name, Role := pod.Role, IsReady := pod.IsReady,
         IsConnectable := pod.IsConnectable }] }

/-- The first loop of `updateStatus` over the whole snapshot. -/
def statusLoop (pods : List PodInfo) : StatusAcc :=
  pods.foldl statusStep { masterCount := 0, slaveCount := 0, masterNode := none, podsStatus := [] }

/-- The variable `desiredReplicas` of `updateStatus`: 3 unless the spec sets it. -/
def statusDesiredReplicas (cluster : MysqlCluster) : Int :=
  match cluster.Spec.Replicas with
  | some replicas => replicas
  | none => 3

/-- The variable `isBootstrapped` of `updateStatus`. -/
def isBootstrapped (currentPhase : GoString) : Bool :=
  currentPhase == MysqlClusterPhaseRunning || currentPhase == MysqlClusterPhaseDegraded ||
    currentPhase == MysqlClusterPhaseFailed

/-- The `switch` of `updateStatus` that derives the phase. -/
def derivePhase (cluster : MysqlCluster) (snapshot : ClusterSnapshot) : GoString :=
  let acc := statusLoop snapshot.Pods
  if !timeIsZero cluster.DeletionTimestamp then MysqlClusterPhaseTerminating
  else if isBootstrapped cluster.Status.Phase then
    if (match acc.masterNode with
        | none => true
        | some masterNode => !masterNode.IsConnectable) then MysqlClusterPhaseFailed
    else if acc.slaveCount < wrap32 (statusDesiredReplicas cluster - 1) then
      MysqlClusterPhaseDegraded
    else MysqlClusterPhaseRunning
  else
    if acc.masterCount ≥ 1 && acc.slaveCount ≥ 1 then MysqlClusterPhaseDegraded
    else if snapshot.Pods.length == 0 then MysqlClusterPhaseInitializing
    else MysqlClusterPhasePending

/-- The value `newStatus` built by `updateStatus`. -/
def computeStatus (cluster : MysqlCluster) (snapshot : ClusterSnapshot) : MysqlClusterStatus :=
  let acc := statusLoop snapshot.Pods
  { Phase := derivePhase cluster snapshot,
    MasterReplicas := acc.masterCount,
    SlaveReplicas := acc.slaveCount,
    MasterDisplay := sprintfRatio acc.masterCount 1,
    SlaveDisplay := sprintfRatio acc.slaveCount ((snapshot.Pods.length : Int) - 1),
    CurrentMaster := (match acc.masterNode with
      | some masterNode => masterNode.Pod.Name
      | none => []),
    Pods := acc.podsStatus,
    Conditions := cluster.Status.Conditions }

/-- What `updateStatus` returns and does: the error, the cluster object after the call, the
status payloads of the `r.Status().Update` calls issued, and the status that the API server
holds afterwards (the cluster object mirrors the stored status on entry). -/
structure StatusOutcome where
  err : Option GoError
  cluster : MysqlCluster
  updates : List MysqlClusterStatus
  stored : MysqlClusterStatus
  deriving DecidableEq, Repr

/-- The function `updateStatus`; `updateErr` is the result of `r.Status().Update`. -/
def updateStatus (updateErr : Option GoError) (cluster : MysqlCluster)
    (snapshot : ClusterSnapshot) : StatusOutcome :=
  let newStatus := computeStatus cluster snapshot
  if cluster.Status != newStatus then
    match updateErr with
    | some e =>
      { err := some (.wrap "10.status update" e), cluster := { cluster with Status := newStatus },
        updates := [newStatus], stored := cluster.Status }
    | none =>
      { err := none, cluster := { cluster with Status := newStatus },
        updates := [newStatus], stored := newStatus }
  else { err := none, cluster := cluster, updates := [], stored := cluster.Status }

/-! ## Snapshot builder: `update_snapshot_with_pod.go` -/

/-- The function `isPodReady`. -/
def isPodReady (pod : Pod) : Bool :=
  if pod.DeletionTimestamp != none then false
  else if pod.Status.Phase != PodRunning then false
  else pod.Status.Conditions.any (fun cond => cond.Typ == PodReady && cond.Status == ConditionTrue)

/-- The role read from the label map in `updateSnapshotWithPod`:
`role := ""; if val, ok := pod.Labels["role"]; ok { role = val }`. -/
def roleOfLabels (pod : Pod) : GoString :=
  match mapGet pod.Labels roleKey with
  | some val => val
  | none => []

/-- The comparison that `updateSnapshotWithPod` hands to `sort.Slice`:
`podList.Items[i].Name < podList.Items[j].Name`. -/
def nameLess (a b : Pod) : Bool := strLess a.Name b.Name

/-- The contract of the library function `sort.Slice` for that comparison: the result is a
rearrangement of the slice in which no element is smaller than an earlier one.  The sort is
not stable and its algorithm is not part of the contract. -/
def SortsByName (sortSlice : List Pod → List Pod) : Prop :=
  ∀ items, (sortSlice items).Perm items ∧
    (sortSlice items).Pairwise (fun a b => nameLess b a = false)

/-- Insertion of a pod into a slice sorted by name. -/
def insertByName (pod : Pod) : List Pod → List Pod
  | [] => [pod]
  | q :: rest => if nameLess q pod then q :: insertByName pod rest else pod :: q :: rest

/-- A sort that meets the contract of `sort.Slice`: insertion sort by name. -/
def sortByName : List Pod → List Pod
  | [] => []
  | pod :: rest => insertByName pod (sortByName rest)

/-- The member that `updateSnapshotWithPod` builds for one pod. -/
def memberOfPod (pod : Pod) : PodInfo :=
  { Pod := pod, Role := roleOfLabels pod, IsReady := isPodReady pod,
    IsConnectable := false, GTID := [] }

/-- The function `updateSnapshotWithPod`.  `list` is the result of `r.List` (the pods of
the namespace carrying the label `app=<cluster>`), `sortSlice` is `sort.Slice` with the
comparison by name. -/
def updateSnapshotWithPod (sortSlice : List Pod → List Pod) (list : Except GoError (List Pod))
    (snapshot : ClusterSnapshot) : Except GoError ClusterSnapshot :=
  match list with
  | .error e => .error (.wrap "5.list pods" e)
  | .ok items => .ok { snapshot with Pods := (sortSlice items).map memberOfPod }

/-! ## GTID prober: `update_snapshot_with_gtid.go` -/

/-- The body of one goroutine of `updateSnapshotWithGTID`, with the `continue` for a member
that is not ready.  `probe` is `queryPodGTID` on the pod with the root password. -/
def probeMember (probe : Pod → GoString → Except GoError GoString) (rootPassword : GoString)
    (p : PodInfo) : PodInfo :=
  if !p.IsReady then p
  else
    match probe p.Pod rootPassword with
    | .error _ => { p with IsConnectable := false }
    | .ok gtid => { p with GTID := gtid, IsConnectable := true }

/-- The error that one goroutine of `updateSnapshotWithGTID` sends to `errChan`, if any. -/
def probeError (probe : Pod → GoString → Except GoError GoString) (rootPassword : GoString)
    (p : PodInfo) : Option GoError :=
  if !p.IsReady then none
  else
    match probe p.Pod rootPassword with
    | .error e => some (.wrap "7.database connection" e)
    | .ok _ => none

/-- The function `updateSnapshotWithGTID`: every goroutine writes its own member only, so
the snapshot afterwards is the member-wise result.  The second component holds the errors
sent to `errChan` (in member order; the function joins them in arrival order and `Reconcile`
only logs the result). -/
def updateSnapshotWithGTID (probe : Pod → GoString → Except GoError GoString)
    (snapshot : ClusterSnapshot) : ClusterSnapshot × List GoError :=
  ({ snapshot with Pods := snapshot.Pods.map (probeMember probe snapshot.RootPassword) },
   snapshot.Pods.filterMap (probeError probe snapshot.RootPassword))

/-! ## Role reconciler: `reconcile_roles.go` -/

/-- The first loop of `reconcileRoles`, list `currentMasters`. -/
def currentMasters (pods : List PodInfo) : List PodInfo :=
  pods.filter (fun node => node.Role == master)

/-- The first loop of `reconcileRoles`, list `candidates`. -/
def candidates (pods : List PodInfo) : List PodInfo :=
  pods.filter (fun node => node.IsReady && node.IsConnectable)

/-- One iteration of the election loop: the new value of `best`. -/
def challenge (best challenger : PodInfo) : PodInfo :=
  if challenger.GTID.length > best.GTID.length then challenger
  else if challenger.GTID.length == best.GTID.length then
    if strLess best.GTID challenger.GTID then challenger else best
  else best

/-- The election loop: `best := candidates[0]`, then every later candidate challenges. -/
def elect (first : PodInfo) (rest : List PodInfo) : PodInfo :=
  rest.foldl challenge first

/-- The `switch len(currentMasters)` of `reconcileRoles`: `some m` when the single current
master is kept, `none` when `needElection` is set. -/
def keptMaster (masters : List PodInfo) : Option PodInfo :=
  match masters with
  | [] => none
  | [existingMaster] =>
    if existingMaster.IsReady && existingMaster.IsConnectable then some existingMaster else none
  | _ :: _ :: _ => none

/-- The value of `targetMaster` when the patch loop starts; `none` is the return with
`ErrHA` (fewer than two candidates). -/
def targetMaster (pods : List PodInfo) : Option PodInfo :=
  match candidates pods with
  | [] => none
  | [_] => none
  | first :: second :: rest =>
    match keptMaster (currentMasters pods) with
    | some existingMaster => some existingMaster
    | none => some (elect first (second :: rest))

/-- One `r.Patch` call: the pod it names and the value it sets for the label `role`. -/
structure PatchCall where
  Name : GoString
  Role : GoString
  deriving DecidableEq, Repr

/-- What `reconcileRoles` returns and does: the two return values, the snapshot members
after the in-place label writes, and the `r.Patch` calls issued, in order. -/
structure RolesOutcome where
  patched : Bool
  err : Option GoError
  pods : List PodInfo
  calls : List PatchCall
  deriving DecidableEq, Repr

/-- The pod with `pod.Pod.Labels["role"] = desiredRole` written. -/
def setRoleLabel (pod : PodInfo) (desiredRole : GoString) : PodInfo :=
  { pod with Pod := { pod.Pod with Labels := mapSet pod.Pod.Labels roleKey desiredRole } }

/-- The variable `desiredRole` of the patch loop:
`"slave"`, or `"master"` when `pod.Pod.Name == targetMaster.Pod.Name`. -/
def desiredRole (targetName : GoString) (pod : PodInfo) : GoString :=
  if pod.Pod.Name == targetName then master else slave

/-- The patch loop of `reconcileRoles` from the member at position `i` on.  `patchErr i` is
the result of `r.Patch` for the member at position `i` of the snapshot. -/
def patchLabels (patchErr : Nat → Option GoError) (targetName : GoString) :
    Nat → List PodInfo → RolesOutcome
  | _, [] => { patched := false, err := none, pods := [], calls := [] }
  | i, pod :: rest =>
    if pod.Role != desiredRole targetName pod then
      let call : PatchCall := { Name := pod.Pod.Name, Role := desiredRole targetName pod }
      match patchErr i with
      | some e =>
        { patched := false, err := some (.wrap "8.patch role label" e),
          pods := setRoleLabel pod (desiredRole targetName pod) :: rest, calls := [call] }
      | none =>
        let r := patchLabels patchErr targetName (i + 1) rest
        { patched := r.err.isNone, err := r.err,
          pods := setRoleLabel pod (desiredRole targetName pod) :: r.pods,
          calls := call :: r.calls }
    else
      let r := patchLabels patchErr targetName (i + 1) rest
      { r with pods := pod :: r.pods }

/-- The function `reconcileRoles`. -/
def reconcileRoles (patchErr : Nat → Option GoError) (snapshot : ClusterSnapshot) :
    RolesOutcome :=
  match targetMaster snapshot.Pods with
  | none => { patched := false, err := some .ErrHA, pods := snapshot.Pods, calls := [] }
  | some target => patchLabels patchErr target.Pod.Name 0 snapshot.Pods

/-! ## Infrastructure ensurer: `ensure_configmap.go`, `ensure_statefulset.go` -/

/-- The table `hextable` of `encoding/hex`, indexed by a nibble. -/
def hexDigit (nibble : Nat) : Nat := (str "0123456789abcdef").getD nibble 0

/-- The function `hex.EncodeToString`: two lower-case digits per byte, high nibble first. -/
def hexEncodeToString (src : List Nat) : GoString :=
  src.flatMap (fun b => [hexDigit (b / 16), hexDigit (b % 16)])

/-- The function `computeConfigMapHash`.  `marshal` is `json.Marshal` and `sum256` is
`sha256.Sum256`, which returns an array of 32 bytes. -/
def computeConfigMapHash (marshal : StringMap → Except GoError GoString)
    (sum256 : GoString → List Nat) (data : StringMap) : Except GoError GoString :=
  match marshal data with
  | .error e => .error e
  | .ok dataBytes => .ok (hexEncodeToString (sum256 dataBytes))

/-- The annotation key `"checksum/config"`. -/
def checksumKey : GoString := str "checksum/config"

/-- The fields of `appsv1.StatefulSet` that the controller sets or reads.  `Replicas` is a
`*int32`; `TemplateAnnotations` is `Spec.Template.Annotations`, a map that may be `nil`;
`Owner` is the controller reference. -/
structure StatefulSet where
  Name : GoString
  Namespace : GoString
  Labels : StringMap
  Replicas : Option Int
  ServiceName : GoString
  TemplateLabels : StringMap
  TemplateAnnotations : Option StringMap
  Image : GoString
  Owner : Option GoString
  deriving DecidableEq, Repr

/-- The read `m[k]` on a map that may be `nil`: the zero value when `nil` or absent. -/
def nilMapIndex (m : Option StringMap) (k : GoString) : GoString :=
  match m with
  | none => []
  | some m => mapIndex m k

/-- The two-valued read on a map that may be `nil`. -/
def nilMapGet (m : Option StringMap) (k : GoString) : Option GoString :=
  match m with
  | none => none
  | some m => mapGet m k

/-- A write call sent to the API server for the workload. -/
inductive StsCall where
  | update (obj : StatefulSet)
  | create (obj : StatefulSet)
  deriving DecidableEq, Repr

/-- How `getOrCreateStatefulSet` ends: a returned object, a returned error, or a run-time
panic on a nil pointer dereference. -/
inductive StsResult where
  | ok (obj : StatefulSet)
  | err (e : GoError)
  | panic
  deriving DecidableEq, Repr

/-- What `getOrCreateStatefulSet` returns and does: how it ends, the write calls issued, the
workload object it holds in memory when it ends, and the workload that the API server holds
afterwards. -/
structure StsOutcome where
  result : StsResult
  calls : List StsCall
  object : Option StatefulSet
  stored : Option StatefulSet
  deriving DecidableEq, Repr

/-- The results of the API calls that `getOrCreateStatefulSet` can make. -/
structure StsEnv where
  get : Except GoError StatefulSet
  updateErr : Option GoError
  ownerErr : Option GoError
  createErr : Option GoError

/-- The function `createStatefulSet`. -/
def createStatefulSet (statefulSetName configHash : GoString) (cluster : MysqlCluster) :
    StatefulSet :=
  let replicas : Int :=
    match cluster.Spec.Replicas with
    | some r => r
    | none => 3
  let labels : StringMap := [(str "app", cluster.Name)]
  { Name := statefulSetName, Namespace := cluster.Namespace, Labels := labels,
    Replicas := some replicas,
    ServiceName := cluster.Name ++ str "-svc-headless",
    TemplateLabels := labels,
    TemplateAnnotations := some [(checksumKey, configHash)],
    Image := cluster.Spec.Image, Owner := none }

/-- The config-hash step of the update path: the object and the flag `needsUpdate`. -/
def reconcileHash (existingSts : StatefulSet) (configHash : GoString) : StatefulSet × Bool :=
  let currentHash := nilMapIndex existingSts.TemplateAnnotations checksumKey
  if currentHash != configHash then
    let annotations : StringMap :=
      match existingSts.TemplateAnnotations with
      | none => []
      | some m => m
    ({ existingSts with TemplateAnnotations := some (mapSet annotations checksumKey configHash) },
      true)
  else (existingSts, false)

/-- The replica step of the update path, after both pointers were dereferenced. -/
def reconcileReplicas (sts : StatefulSet) (needsUpdate : Bool)
    (currentReplicas desiredReplicas : Int) : StatefulSet × Bool :=
  if desiredReplicas > currentReplicas then
    ({ sts with Replicas := some desiredReplicas }, true)
  else (sts, needsUpdate)

/-- The function `getOrCreateStatefulSet`. -/
def getOrCreateStatefulSet (env : StsEnv) (statefulSetName configHash : GoString)
    (cluster : MysqlCluster) : StsOutcome :=
  match env.get with
  | .ok existingSts =>
    let (sts1, needs1) := reconcileHash existingSts configHash
    match sts1.Replicas, cluster.Spec.Replicas with
    | some currentReplicas, some desiredReplicas =>
      let (sts2, needsUpdate) := reconcileReplicas sts1 needs1 currentReplicas desiredReplicas
      if needsUpdate then
        match env.updateErr with
        | some e =>
          { result := .err (.wrap "4.3 update StatefulSet" e), calls := [.update sts2],
            object := some sts2, stored := some existingSts }
        | none =>
          { result := .ok sts2, calls := [.update sts2], object := some sts2,
            stored := some sts2 }
      else
        { result := .ok sts2, calls := [], object := some sts2, stored := some existingSts }
    | _, _ => { result := .panic, calls := [], object := some sts1, stored := some existingSts }
  | .error getErr =>
    if !getErr.isNotFound then
      { result := .err (.wrap "4.3 get" getErr), calls := [], object := none, stored := none }
    else
      let newSts := createStatefulSet statefulSetName configHash cluster
      match env.ownerErr with
      | some e =>
        { result := .err (.wrap "4.3 owner reference" e), calls := [], object := some newSts,
          stored := none }
      | none =>
        let owned := { newSts with Owner := some cluster.Name }
        match env.createErr with
        | some e =>
          { result := .err (.wrap "4.3 create" e), calls := [.create owned],
            object := some owned, stored := none }
        | none =>
          { result := .ok owned, calls := [.create owned], object := some owned,
            stored := some owned }

/-! ## The cycle: `mysqlcluster_controller.go` -/

/-- The results of everything a cycle asks of its collaborators: the cluster read, the
status-subresource update, the credential check (stage 3), the infrastructure ensurer
(stage 4), the pod listing (stage 5), the user reconciler (stage 6), the snapshot as it
stands after the GTID prober (stage 7, whose error is only logged), the label patches and
the replication configurator (stage 9). -/
structure CycleEnv where
  getErr : Option GoError
  statusUpdateErr : Option GoError
  secretErr : Option GoError
  infraErr : Option GoError
  listErr : Option GoError
  usersErr : Option GoError
  snapshot : ClusterSnapshot
  patchErr : Nat → Option GoError
  settingsErr : Option GoError

/-- What one cycle returns and does: `ctrl.Result.RequeueAfter` in seconds (0 when unset),
the error, the status payloads sent with `r.Status().Update`, the status that the API
server holds afterwards, the label patches issued, and whether stages 4 and 9 ran. -/
structure ReconcileOutcome where
  requeueAfter : Nat
  err : Option GoError
  statusUpdates : List MysqlClusterStatus
  stored : MysqlClusterStatus
  patches : List PatchCall
  ranInfrastructure : Bool
  ranReplication : Bool
  deriving DecidableEq, Repr

/-- The function `Reconcile`; `cluster` is the object that `r.Get` reads when it
succeeds. -/
def Reconcile (env : CycleEnv) (cluster : MysqlCluster) : ReconcileOutcome :=
  let quiet : ReconcileOutcome :=
    { requeueAfter := 0, err := none, statusUpdates := [], stored := cluster.Status,
      patches := [], ranInfrastructure := false, ranReplication := false }
  match env.getErr with
  | some e => { quiet with err := if e.isNotFound then none else some e }
  | none =>
  if cluster.Status.Phase == [] then
    let initStatus := { cluster.Status with Phase := MysqlClusterPhaseInitializing }
    match env.statusUpdateErr with
    | some e => { quiet with err := some (.wrap "2.phase Initializing" e),
                             statusUpdates := [initStatus] }
    | none => { quiet with statusUpdates := [initStatus], stored := initStatus }
  else
  match env.secretErr with
  | some e => { quiet with err := some e }
  | none =>
  match env.infraErr with
  | some e => { quiet with err := some e, ranInfrastructure := true }
  | none =>
  match env.listErr with
  | some e => { quiet with err := some e, ranInfrastructure := true }
  | none =>
  match env.usersErr with
  | some e => { quiet with err := some e, ranInfrastructure := true }
  | none =>
  let roles := reconcileRoles env.patchErr env.snapshot
  let snapshot := { env.snapshot with Pods := roles.pods }
  match roles.err with
  | some e =>
    if e.isErrHA then
      let st := updateStatus env.statusUpdateErr cluster snapshot
      { requeueAfter := 5, err := none, statusUpdates := st.updates, stored := st.stored,
        patches := roles.calls, ranInfrastructure := true, ranReplication := false }
    else { quiet with err := some e, patches := roles.calls, ranInfrastructure := true }
  | none =>
    if roles.patched then
      let st := updateStatus env.statusUpdateErr cluster snapshot
      { requeueAfter := 0, err := none, statusUpdates := st.updates, stored := st.stored,
        patches := roles.calls, ranInfrastructure := true, ranReplication := false }
    else
      match env.settingsErr with
      | some e => { quiet with err := some e, patches := roles.calls,
                               ranInfrastructure := true, ranReplication := true }
      | none =>
        let st := updateStatus env.statusUpdateErr cluster snapshot
        { requeueAfter := if st.err.isSome then 0 else 60, err := st.err,
          statusUpdates := st.updates, stored := st.stored, patches := roles.calls,
          ranInfrastructure := true, ranReplication := true }

/-- One cycle of a run: the results of its collaborators and the spec as the user left it
when the cycle starts. -/
structure Cycle where
  env : CycleEnv
  spec : MysqlClusterSpec

/-- A run of cycles on one cluster object: each cycle reads the stored status left by the
previous one.  Returns the cluster as stored at the end and every status payload sent. -/
def runCycles : List Cycle → MysqlCluster → MysqlCluster × List MysqlClusterStatus
  | [], cluster => (cluster, [])
  | cycle :: rest, cluster =>
    let out := Reconcile cycle.env { cluster with Spec := cycle.spec }
    let next := runCycles rest { cluster with Spec := cycle.spec, Status := out.stored }
    (next.1, out.statusUpdates ++ next.2)

/-- The phases of a bootstrapped cluster. -/
def adultPhase (phase : GoString) : Prop :=
  phase = MysqlClusterPhaseRunning ∨ phase = MysqlClusterPhaseDegraded ∨
    phase = MysqlClusterPhaseFailed

/-- The phase table of the specification, from the deletion state, the observed phase, the
number of connectable masters and slaves, the desired replica count and the snapshot size. -/
def phaseTable (deleting : Bool) (observed : GoString) (masters slaves : Nat) (desired : Int)
    (members : Nat) : GoString :=
  if deleting then MysqlClusterPhaseTerminating
  else if observed = MysqlClusterPhaseRunning ∨ observed = MysqlClusterPhaseDegraded ∨
      observed = MysqlClusterPhaseFailed then
    if masters = 0 then MysqlClusterPhaseFailed
    else if (slaves : Int) < desired - 1 then MysqlClusterPhaseDegraded
    else MysqlClusterPhaseRunning
  else if 1 ≤ masters ∧ 1 ≤ slaves then MysqlClusterPhaseDegraded
  else if members = 0 then MysqlClusterPhaseInitializing
  else MysqlClusterPhasePending

/-- The number of connectable members with the given role. -/
def connectableWithRole (role : GoString) (pods : List PodInfo) : Nat :=
  pods.countP (fun pod => pod.IsConnectable && pod.Role == role)

/-- The order of the election as the specification words it: `a` beats `b` when it is
longer, or has the same length and is greater byte-wise. -/
def gtidGreater (a b : GoString) : Bool :=
  a.length > b.length || (a.length == b.length && strLess b a)

/-- The label `role` that a pod carries. -/
def carriesRole (p : PodInfo) (role : GoString) : Bool :=
  mapGet p.Pod.Labels roleKey == some role

/-- The member as the patch loop leaves it when its patch succeeds. -/
def relabel (targetName : GoString) (pod : PodInfo) : PodInfo :=
  if pod.Role != desiredRole targetName pod then setRoleLabel pod (desiredRole targetName pod)
  else pod

/-- The invariant of the election loop over the candidates scanned so far: `best` is one of
them, none of them beats it, and it is the first of them with its GTID. -/
def ElectInv (seen : List PodInfo) (best : PodInfo) : Prop :=
  best ∈ seen ∧ (∀ c ∈ seen, gtidGreater c.GTID best.GTID = false) ∧
    seen.find? (fun c => c.GTID == best.GTID) = some best

/-! ## Credential resolver: `ensure_secret.go` -/

/-- The field `Data` of `corev1.Secret`, a `map[string][]byte` that is only read. -/
structure Secret where
  Data : StringMap
  deriving DecidableEq, Repr

/-- The key `"root-password"`. -/
def rootPasswordKey : GoString := str "root-password"
/-- The key `"repl-password"`. -/
def replPasswordKey : GoString := str "repl-password"

/-- The function `checkSecret`; `get` is the result of `r.Get` on the referenced secret.
On success the result is `(rootPassword, replPassword)`. -/
def checkSecret (get : Except GoError Secret) : Except GoError (GoString × GoString) :=
  match get with
  | .error err =>
    if err.isNotFound then .error (.wrap "3.required secret does not exist" err)
    else .error (.wrap "3.get secret" err)
  | .ok existingSecret =>
    match mapGet existingSecret.Data rootPasswordKey with
    | none => .error (.errorf "3.secret lacks key root-password")
    | some rootPassword =>
      match mapGet existingSecret.Data replPasswordKey with
      | none => .error (.errorf "3.secret lacks key repl-password")
      | some replPassword => .ok (rootPassword, replPassword)

/-! ## Database statements: `ensure_database_users.go`, `reconcile_database_settings.go` -/

/-- One call of `db.ExecContext` or `db.QueryContext`: the statement text and the bound
arguments that follow it. -/
structure SqlStmt where
  text : GoString
  args : List GoString
  deriving DecidableEq, Repr

/-- What a function working on one database returns and does: the error and the
statements issued, in order. -/
structure SqlOutcome where
  err : Option GoError
  issued : List SqlStmt
  deriving DecidableEq, Repr

/-- A run of `if _, err := db.ExecContext(ctx, stmt); err != nil { return fmt.Errorf(msg, err) }`
steps: the statements are issued in order up to the first that fails.  `exec` is the result
of `db.ExecContext` on a statement. -/
def execSeq (exec : SqlStmt → Option GoError) : List (SqlStmt × String) → SqlOutcome
  | [] => { err := none, issued := [] }
  | (stmt, msg) :: rest =>
    match exec stmt with
    | some e => { err := some (.wrap msg e), issued := [stmt] }
    | none =>
      let r := execSeq exec rest
      { err := r.err, issued := stmt :: r.issued }

/-- Constant `ReplUser`. -/
def ReplUser : GoString := str "repl"

/-- The statements of `reconcileUserForPod` with their error messages, in order. -/
def userStatements (rootPwd replPwd : GoString) : List (SqlStmt × String) :=
  [ ({ text := str "SET SESSION sql_log_bin = 0", args := [] }, "6.3 sql_log_bin"),
    ({ text := str "CREATE USER IF NOT EXISTS '" ++ ReplUser ++ str "'@'%' IDENTIFIED BY ?",
       args := [replPwd] }, "6.4 create repl user"),
    ({ text := str "ALTER USER '" ++ ReplUser ++ str "'@'%' IDENTIFIED BY ?",
       args := [replPwd] }, "6.5 repl password"),
    ({ text := str "GRANT REPLICATION SLAVE ON *.* TO '" ++ ReplUser ++ str "'@'%'",
       args := [] }, "6.6 grant"),
    ({ text := str "ALTER USER 'root'@'%' IDENTIFIED BY ?", args := [rootPwd] },
      "6.7 root password"),
    ({ text := str "FLUSH PRIVILEGES", args := [] }, "6.8 flush privileges") ]

/-- The function `reconcileUserForPod`; `openErr` and `pingErr` are the results of
`sql.Open` and `db.PingContext`. -/
def reconcileUserForPod (openErr pingErr : Option GoError) (exec : SqlStmt → Option GoError)
    (rootPwd replPwd : GoString) : SqlOutcome :=
  match openErr with
  | some e => { err := some (.wrap "6.1 dsn" e), issued := [] }
  | none =>
    match pingErr with
    | some e => { err := some (.wrap "6.2 ping" e), issued := [] }
    | none => execSeq exec (userStatements rootPwd replPwd)

/-- The result of `db.QueryContext(ctx, "SHOW SLAVE STATUS")` as `isReplicatingCorrectly`
reads it: the rows (a cell is `none` when its value is not a byte slice, as for NULL), the
result of `rows.Columns()` and the result of `rows.Scan` on the first row. -/
structure SlaveStatusRows where
  rows : List (List (Option GoString))
  columns : Except GoError (List GoString)
  scanErr : Option GoError

/-- The call `strings.EqualFold(s, "Yes")`: equality under simple Unicode case folding.
The strings that fold to `Yes` are `y` or `Y`, then `e` or `E`, then `s`, `S` or the long s
U+017F (bytes C5 BF in UTF-8). -/
def equalFoldYes (s : GoString) : Bool :=
  match s with
  | y :: e :: rest =>
    (y == 89 || y == 121) && (e == 69 || e == 101) &&
      (rest == [83] || rest == [115] || rest == [197, 191])
  | _ => false

/-- The map `statusMap` of `isReplicatingCorrectly`: column name to cell text, `""` for a
cell that is not a byte slice; a later column of the same name overwrites an earlier one. -/
def statusMapOf (columns : List GoString) (values : List (Option GoString)) : StringMap :=
  (columns.zip values).foldl (fun m cv => mapSet m cv.1 (cv.2.getD [])) []

/-- The test at the end of `isReplicatingCorrectly` on the scanned row. -/
def rowConverged (columns : List GoString) (values : List (Option GoString))
    (targetMasterHost : GoString) : Bool :=
  let statusMap := statusMapOf columns values
  equalFoldYes (mapIndex statusMap (str "Slave_IO_Running")) &&
    equalFoldYes (mapIndex statusMap (str "Slave_SQL_Running")) &&
    mapIndex statusMap (str "Master_Host") == targetMasterHost

/-- The function `isReplicatingCorrectly`. -/
def isReplicatingCorrectly (query : Except GoError SlaveStatusRows)
    (targetMasterHost : GoString) : Except GoError Bool :=
  match query with
  | .error err => .error err
  | .ok result =>
    match result.rows with
    | [] => .ok false
    | values :: _ =>
      match result.columns with
      | .error err => .error err
      | .ok columns =>
        match result.scanErr with
        | some err => .error err
        | none => .ok (rowConverged columns values targetMasterHost)

/-- Statement `SET GLOBAL read_only=1`. -/
def setReadOnly : SqlStmt := { text := str "SET GLOBAL read_only=1", args := [] }
/-- Statement `SET GLOBAL read_only=0`. -/
def setReadWrite : SqlStmt := { text := str "SET GLOBAL read_only=0", args := [] }
/-- Statement `SHOW SLAVE STATUS`. -/
def showSlaveStatus : SqlStmt := { text := str "SHOW SLAVE STATUS", args := [] }
/-- Statement `STOP SLAVE`. -/
def stopSlave : SqlStmt := { text := str "STOP SLAVE", args := [] }
/-- Statement `RESET SLAVE ALL`. -/
def resetSlaveAll : SqlStmt := { text := str "RESET SLAVE ALL", args := [] }
/-- Statement `START SLAVE`. -/
def startSlave : SqlStmt := { text := str "START SLAVE", args := [] }

/-- The statement `changeMasterSQL` of `configureSlave`: `fmt.Sprintf` writes the master
host and the replication password into the text; no argument is bound. -/
def changeMaster (masterHost replPwd : GoString) : SqlStmt :=
  { text := str "\n\t\tCHANGE MASTER TO \n\t\tMASTER_HOST='" ++ masterHost ++
      str "', \n\t\tMASTER_USER='repl', \n\t\tMASTER_PASSWORD='" ++ replPwd ++
      str "', \n\t\tMASTER_PORT=3306, \n\t\tMASTER_CONNECT_RETRY=10, \n\t\tMASTER_AUTO_POSITION=1;\n\t",
    args := [] }

/-- The function `configureMaster`: the error of `STOP SLAVE` is ignored. -/
def configureMaster (exec : SqlStmt → Option GoError) : SqlOutcome :=
  match exec setReadWrite with
  | some e => { err := some (.wrap "9.1 read-write" e), issued := [setReadWrite] }
  | none =>
    match exec resetSlaveAll with
    | some e =>
      { err := some (.wrap "9.1 reset slave" e), issued := [setReadWrite, stopSlave, resetSlaveAll] }
    | none => { err := none, issued := [setReadWrite, stopSlave, resetSlaveAll] }

/-- The statements of `configureSlave` after the idempotence check, in order. -/
def slaveStatements (masterHost replPwd : GoString) : List (SqlStmt × String) :=
  [ (stopSlave, "9.2 stop slave"), (resetSlaveAll, "9.2 reset slave"),
    (changeMaster masterHost replPwd, "9.2 change master"), (startSlave, "9.2 start slave") ]

/-- The function `configureSlave`; `query` is the result of the `SHOW SLAVE STATUS`
query. -/
def configureSlave (exec : SqlStmt → Option GoError) (query : Except GoError SlaveStatusRows)
    (masterHost replPwd : GoString) : SqlOutcome :=
  match exec setReadOnly with
  | some e => { err := some (.wrap "9.2 read-only" e), issued := [setReadOnly] }
  | none =>
    match isReplicatingCorrectly query masterHost with
    | .error e =>
      { err := some (.wrap "9.2 replication status" e), issued := [setReadOnly, showSlaveStatus] }
    | .ok true => { err := none, issued := [setReadOnly, showSlaveStatus] }
    | .ok false =>
      let r := execSeq exec (slaveStatements masterHost replPwd)
      { err := r.err, issued := setReadOnly :: showSlaveStatus :: r.issued }

/-- The value `masterHost` of `reconcileDatabaseSettings`:
`fmt.Sprintf("%s.%s-svc-headless.%s", pod name, cluster name, namespace)`. -/
def masterHostOf (podName clusterName clusterNamespace : GoString) : GoString :=
  podName ++ str "." ++ clusterName ++ str "-svc-headless." ++ clusterNamespace

/-- What the database of one pod answers during stage 9: the results of `sql.Open` and
`db.PingContext`, of each `db.ExecContext`, and of the `SHOW SLAVE STATUS` query. -/
structure DbSession where
  openErr : Option GoError
  pingErr : Option GoError
  exec : SqlStmt → Option GoError
  slaveStatus : Except GoError SlaveStatusRows

/-- The body of one goroutine of `reconcileDatabaseSettings`: connect, then configure the
pod after its `Role` (`configureMaster` for master, `configureSlave` for slave, nothing
otherwise); the error is the one sent to `errChan`, if any. -/
def configurePod (db : DbSession) (p : PodInfo) (masterHost replPwd : GoString) : SqlOutcome :=
  match db.openErr with
  | some e => { err := some (.wrap "9.dsn" e), issued := [] }
  | none =>
    match db.pingErr with
    | some e => { err := some (.wrap "9.ping" e), issued := [] }
    | none =>
      let afterMaster : SqlOutcome :=
        if p.Role == master then configureMaster db.exec else { err := none, issued := [] }
      let afterSlave : SqlOutcome :=
        if p.Role == slave then
          let r := configureSlave db.exec db.slaveStatus masterHost replPwd
          { err := r.err, issued := afterMaster.issued ++ r.issued }
        else afterMaster
      { err := afterSlave.err.map (GoError.wrap "9.configure database"),
        issued := afterSlave.issued }

/-- The error that `reconcileDatabaseSettings` returns when no member has `Role` master. -/
def noMasterError : GoError := .errorf "9.no member with role=master in the snapshot"

/-- What `reconcileDatabaseSettings` returns and does: the member it takes as master, the
errors sent to `errChan` (in member order; the function returns nil when there is none and
otherwise the one that arrived first), and the statements issued on each connectable pod. -/
structure SettingsOutcome where
  targetMasterNode : Option PodInfo
  errs : List GoError
  sessions : List (GoString × List SqlStmt)

/-- The function `reconcileDatabaseSettings`; `db` gives the database session of a pod.
Every goroutine works on its own pod, so the outcome is the member-wise result. -/
def reconcileDatabaseSettings (db : Pod → DbSession) (snapshot : ClusterSnapshot)
    (cluster : MysqlCluster) : SettingsOutcome :=
  match snapshot.Pods.find? (fun node => node.Role == master) with
  | none => { targetMasterNode := none, errs := [noMasterError], sessions := [] }
  | some targetMasterNode =>
    let masterHost := masterHostOf targetMasterNode.Pod.Name cluster.Name cluster.Namespace
    let runs := (snapshot.Pods.filter (fun pod => pod.IsConnectable)).map
      (fun p => (p.Pod.Name, configurePod (db p.Pod) p masterHost snapshot.ReplPassword))
    { targetMasterNode := some targetMasterNode,
      errs := runs.filterMap (fun r => r.2.err),
      sessions := runs.map (fun r => (r.1, r.2.issued)) }

/-- The convergence test as the specification words it: exactly one row, whose
`Slave_IO_Running` is `Yes`, `Slave_SQL_Running` is `Yes` and `Master_Host` is the target. -/
def specConverged (result : SlaveStatusRows) (targetMasterHost : GoString) : Bool :=
  match result.rows, result.columns with
  | [values], .ok columns =>
    mapIndex (statusMapOf columns values) (str "Slave_IO_Running") == str "Yes" &&
      mapIndex (statusMapOf columns values) (str "Slave_SQL_Running") == str "Yes" &&
      mapIndex (statusMapOf columns values) (str "Master_Host") == targetMasterHost
  | _, _ => false

/-! ## The cycle on its collaborators -/

/-- The outside of one cycle: the results of the API calls and database sessions that the
stages make.  Stages 3, 5 and 7 are the functions above; stages 4, 6 and 9 enter by their
result. -/
structure World where
  getErr : Option GoError
  statusUpdateErr : Option GoError
  secret : Except GoError Secret
  infraErr : Option GoError
  list : Except GoError (List Pod)
  sortSlice : List Pod → List Pod
  usersErr : Option GoError
  probe : Pod → GoString → Except GoError GoString
  patchErr : Nat → Option GoError
  settingsErr : Option GoError

/-- The snapshot of a cycle after stage 7, built as `Reconcile` does: passwords from
`checkSecret`, members from `updateSnapshotWithPod`, probes from `updateSnapshotWithGTID`. -/
def observedSnapshot (w : World) : ClusterSnapshot :=
  let passwords : GoString × GoString :=
    match checkSecret w.secret with
    | .ok pw => pw
    | .error _ => ([], [])
  let initial : ClusterSnapshot :=
    { RootPassword := passwords.1, ReplPassword := passwords.2, Pods := [] }
  match updateSnapshotWithPod w.sortSlice w.list initial with
  | .ok built => (updateSnapshotWithGTID w.probe built).1
  | .error _ => initial

/-- The stage results of a cycle in a given world. -/
def cycleEnv (w : World) : CycleEnv :=
  { getErr := w.getErr, statusUpdateErr := w.statusUpdateErr,
    secretErr := (match checkSecret w.secret with
      | .ok _ => none
      | .error e => some e),
    infraErr := w.infraErr,
    listErr := (match updateSnapshotWithPod w.sortSlice w.list
        { RootPassword := [], ReplPassword := [], Pods := [] } with
      | .ok _ => none
      | .error e => some e),
    usersErr := w.usersErr, snapshot := observedSnapshot w,
    patchErr := w.patchErr, settingsErr := w.settingsErr }

/-- A cycle reaches the role reconciler: the cluster is read, its phase is set, and
stages 3 to 6 return no error. -/
def ReachesRoles (env : CycleEnv) (cluster : MysqlCluster) : Prop :=
  env.getErr = none ∧ cluster.Status.Phase ≠ [] ∧ env.secretErr = none ∧
    env.infraErr = none ∧ env.listErr = none ∧ env.usersErr = none

/-- The phase derivation of `updateStatus` as a step on the stored phase: the phase it
derives when the observed phase is `phase`, for a fixed cluster object (deletion state and
desired replica count) and a fixed snapshot. -/
def nextPhase (cluster : MysqlCluster) (snapshot : ClusterSnapshot) (phase : GoString) :
    GoString :=
  derivePhase { cluster with Status := { cluster.Status with Phase := phase } } snapshot

/-- A member as the next cycle's snapshot holds it when nothing but the labels changed:
`Role` is read again from the pod's label, the rest is the same. -/
def rebuildMember (p : PodInfo) : PodInfo := { p with Role := roleOfLabels p.Pod }

/-! ## Scenario E2 of the specification: the primary pod is being deleted -/

/-- A pod of cluster `c` in namespace `ns` with the given name and role label. -/
def examplePod (name role : String) (deleted : Option Nat) : Pod :=
  { Name := str name, Namespace := str "ns",
    Labels := [(str "app", str "c"), (roleKey, str role)],
    DeletionTimestamp := deleted,
    Status := { Phase := PodRunning, Conditions := [{ Typ := PodReady, Status := ConditionTrue }],
                PodIP := str "10.0.0.7" } }

/-- Member `c-0`: labelled master, carrying a deletion timestamp, hence not ready. -/
def e2c0 : PodInfo :=
  { Pod := examplePod "c-0" "master" (some 1700000000), Role := master,
    IsReady := false, IsConnectable := false, GTID := [] }

/-- Member `c-1`: a healthy replica with GTID `uuid:1-100`. -/
def e2c1 : PodInfo :=
  { Pod := examplePod "c-1" "slave" none, Role := slave,
    IsReady := true, IsConnectable := true, GTID := str "uuid:1-100" }

/-- Member `c-2`: a healthy replica with GTID `uuid:1-99`. -/
def e2c2 : PodInfo :=
  { Pod := examplePod "c-2" "slave" none, Role := slave,
    IsReady := true, IsConnectable := true, GTID := str "uuid:1-99" }

/-- The snapshot of scenario E2. -/
def e2Snapshot : ClusterSnapshot :=
  { RootPassword := str "r", ReplPassword := str "p", Pods := [e2c0, e2c1, e2c2] }

/-- Member `c-1` after its promotion: labelled master, healthy, with a short GTID. -/
def keepC1 : PodInfo :=
  { Pod := examplePod "c-1" "master" none, Role := master,
    IsReady := true, IsConnectable := true, GTID := str "uuid:1-100" }

/-- Member `c-2` as a replica whose GTID string is longer than the master's. -/
def keepC2 : PodInfo :=
  { Pod := examplePod "c-2" "slave" none, Role := slave,
    IsReady := true, IsConnectable := true, GTID := str "uuid:1-100,other:1-5" }

/-- A snapshot whose single master is healthy while a replica has the longer GTID. -/
def keepSnapshot : ClusterSnapshot :=
  { RootPassword := str "r", ReplPassword := str "p", Pods := [keepC1, keepC2] }

/-- A bootstrapped cluster: three desired replicas, stored phase Running. -/
def runningCluster : MysqlCluster :=
  { Name := str "c", Namespace := str "ns", DeletionTimestamp := none,
    Spec := { Image := str "mysql:8.0", Replicas := some 3, Storage := str "1Gi",
              Resources := [], SecretName := str "mysql-secret" },
    Status := { Phase := MysqlClusterPhaseRunning, MasterReplicas := 1, SlaveReplicas := 2,
                MasterDisplay := str "1/1", SlaveDisplay := str "2/2",
                CurrentMaster := str "c-0", Pods := [], Conditions := [] } }

/-- The snapshot of a cold start: no pod listed yet. -/
def emptySnapshot : ClusterSnapshot :=
  { RootPassword := str "r", ReplPassword := str "p", Pods := [] }

/-- A bootstrapped cluster scaled to five desired replicas. -/
def fiveReplicaCluster : MysqlCluster :=
  { runningCluster with Spec := { runningCluster.Spec with Replicas := some 5 } }

/-- A cycle in which every collaborator succeeds and the prober leaves scenario E2. -/
def e2Cycle : Cycle :=
  { env := { getErr := none, statusUpdateErr := none, secretErr := none, infraErr := none,
             listErr := none, usersErr := none, snapshot := e2Snapshot,
             patchErr := fun _ => none, settingsErr := none },
    spec := runningCluster.Spec }

/-- A 32-byte sum, every byte `0xab`. -/
def exampleSum : List Nat := List.replicate 32 171

/-- A digest that differs from the one of `exampleSum`: the hex encoding of 32 zero bytes. -/
def exampleDigest : GoString := hexEncodeToString (List.replicate 32 0)

/-- An existing workload of cluster `c`: three replicas, annotated with `exampleDigest`. -/
def exampleSts : StatefulSet :=
  { Name := str "c-statefulset", Namespace := str "ns", Labels := [(str "app", str "c")],
    Replicas := some 3, ServiceName := str "c-svc-headless",
    TemplateLabels := [(str "app", str "c")],
    TemplateAnnotations := some [(checksumKey, exampleDigest)],
    Image := str "mysql:8.0", Owner := some (str "c") }

/-- The API server holds `exampleSts` and accepts every write. -/
def exampleStsEnv : StsEnv :=
  { get := .ok exampleSts, updateErr := none, ownerErr := none, createErr := none }

/-- The pods of scenario E2 as the API server lists them, in no particular order. -/
def listingA : List Pod := [e2c2.Pod, e2c0.Pod, e2c1.Pod]

/-- The same pods listed in another order. -/
def listingB : List Pod := [e2c1.Pod, e2c2.Pod, e2c0.Pod]

/-- A prober that reaches `c-2` only. -/
def exampleProbe (pod : Pod) (_rootPassword : GoString) : Except GoError GoString :=
  if pod.Name == str "c-2" then .ok (str "uuid:1-99") else .error (.external 2003)

/-- Scenario E4: `c-0`, labelled master, is gone and `c-1`, labelled slave, is the only
healthy member. -/
def loneSlaveSnapshot : ClusterSnapshot :=
  { RootPassword := str "r", ReplPassword := str "p", Pods := [e2c0, e2c1] }

/-- A cycle in which every collaborator succeeds and the prober leaves scenario E4. -/
def loneSlaveEnv : CycleEnv :=
  { getErr := none, statusUpdateErr := none, secretErr := none, infraErr := none,
    listErr := none, usersErr := none, snapshot := loneSlaveSnapshot,
    patchErr := fun _ => none, settingsErr := none }

/-- The headless DNS name of `c-0` in cluster `c`, namespace `ns`. -/
def exampleMasterHost : GoString := str "c-0.c-svc-headless.ns"

/-- The columns of `SHOW SLAVE STATUS` that the examples carry. -/
def exampleColumns : List GoString :=
  [str "Slave_IO_State", str "Master_Host", str "Slave_IO_Running", str "Slave_SQL_Running"]

/-- A probe result with two replication channels: the first follows the target and runs,
the second follows another host and is stopped. -/
def twoChannelStatus : SlaveStatusRows :=
  { rows := [[some (str "Waiting for master to send event"), some exampleMasterHost,
              some (str "Yes"), some (str "Yes")],
             [none, some (str "legacy-db.example"), some (str "No"), some (str "No")]],
    columns := .ok exampleColumns, scanErr := none }

/-- A probe result with one row whose thread columns read `yes` in lower case. -/
def lowerCaseStatus : SlaveStatusRows :=
  { rows := [[none, some exampleMasterHost, some (str "yes"), some (str "yes")]],
    columns := .ok exampleColumns, scanErr := none }

/-- The probe result of a database that was never configured as a replica: no row. -/
def noSlaveStatus : SlaveStatusRows :=
  { rows := [], columns := .ok exampleColumns, scanErr := none }

/-- A cluster whose spec leaves the replica count unset. -/
def unsetReplicasCluster : MysqlCluster :=
  { runningCluster with Spec := { runningCluster.Spec with Replicas := none } }

/-- A fresh cluster of two desired replicas, its phase set by the phase initializer. -/
def twoReplicaCluster : MysqlCluster :=
  { runningCluster with
    Spec := { runningCluster.Spec with Replicas := some 2 },
    Status := { runningCluster.Status with Phase := MysqlClusterPhaseInitializing } }

/-- Database sessions in which every call succeeds and no replication is configured. -/
def freshDb (_pod : Pod) : DbSession :=
  { openErr := none, pingErr := none, exec := fun _ => none, slaveStatus := .ok noSlaveStatus }

/-! # Theorems -/

/-! ## Strings -/

theorem strLess_irrefl (a : GoString) : strLess a a = false := by
  induction a with
  | nil => rfl
  | cons x xs ih => simp [strLess, ih]

theorem strLess_trans : ∀ (a b c : GoString), strLess a b = true → strLess b c = true →
    strLess a c = true
  | [], [], _, h, _ => by simp [strLess] at h
  | [], _ :: _, [], _, h => by simp [strLess] at h
  | [], _ :: _, _ :: _, _, _ => by simp [strLess]
  | _ :: _, [], _, h, _ => by simp [strLess] at h
  | _ :: _, _ :: _, [], _, h => by simp [strLess] at h
  | x :: xs, y :: ys, z :: zs, h1, h2 => by
    simp only [strLess] at h1 h2 ⊢
    by_cases hxy : x < y
    · by_cases hyz : y < z
      · have : x < z := lt_trans hxy hyz
        simp [this]
      · simp only [hyz, if_false] at h2
        by_cases hzy : z < y
        · simp [hzy] at h2
        · have : y = z := by omega
          subst this
          simp [hxy]
    · simp only [hxy, if_false] at h1
      by_cases hyx : y < x
      · simp [hyx] at h1
      · simp only [hyx, if_false] at h1
        have : x = y := by omega
        subst this
        by_cases hxz : x < z
        · simp [hxz]
        · simp only [hxz, if_false] at h2 ⊢
          by_cases hzx : z < x
          · simp [hzx] at h2
          · simp only [hzx, if_false] at h2 ⊢
            exact strLess_trans xs ys zs h1 h2

theorem strLess_total : ∀ (a b : GoString), a = b ∨ strLess a b = true ∨ strLess b a = true
  | [], [] => Or.inl rfl
  | [], _ :: _ => Or.inr (Or.inl rfl)
  | _ :: _, [] => Or.inr (Or.inr rfl)
  | x :: xs, y :: ys => by
    simp only [strLess]
    by_cases hxy : x < y
    · simp [hxy]
    · by_cases hyx : y < x
      · simp [hyx]
      · have : x = y := by omega
        subst this
        simp only [hxy, if_false]
        rcases strLess_total xs ys with h | h | h
        · left; rw [h]
        · right; left; exact h
        · right; right; exact h

theorem gtidGreater_irrefl (a : GoString) : gtidGreater a a = false := by
  simp [gtidGreater, strLess_irrefl]

theorem gtidGreater_trans (a b c : GoString) (h1 : gtidGreater a b = true)
    (h2 : gtidGreater b c = true) : gtidGreater a c = true := by
  simp only [gtidGreater, Bool.or_eq_true, decide_eq_true_eq, Bool.and_eq_true, beq_iff_eq]
    at h1 h2 ⊢
  rcases h1 with h1 | ⟨h1, h1'⟩ <;> rcases h2 with h2 | ⟨h2, h2'⟩
  · left; omega
  · left; omega
  · left; omega
  · right; exact ⟨by omega, strLess_trans _ _ _ h2' h1'⟩

theorem gtidGreater_total (a b : GoString) :
    a = b ∨ gtidGreater a b = true ∨ gtidGreater b a = true := by
  simp only [gtidGreater, Bool.or_eq_true, decide_eq_true_eq, Bool.and_eq_true, beq_iff_eq]
  rcases Nat.lt_trichotomy a.length b.length with h | h | h
  · right; right; left; exact h
  · rcases strLess_total a b with e | e | e
    · left; exact e
    · right; right; right; exact ⟨h.symm, e⟩
    · right; left; right; exact ⟨h, e⟩
  · right; left; left; exact h

/-! ## Election -/

theorem challenge_eq (best challenger : PodInfo) :
    challenge best challenger =
      if gtidGreater challenger.GTID best.GTID then challenger else best := by
  unfold challenge gtidGreater
  by_cases h1 : challenger.GTID.length > best.GTID.length
  · simp [h1]
  · by_cases h2 : challenger.GTID.length = best.GTID.length
    · simp [h2]
    · simp [h1, h2]

theorem electInv_step (seen : List PodInfo) (best ch : PodInfo) (h : ElectInv seen best) :
    ElectInv (seen ++ [ch]) (challenge best ch) := by
  obtain ⟨hmem, hmax, hfirst⟩ := h
  rw [challenge_eq]
  by_cases hg : gtidGreater ch.GTID best.GTID = true
  · rw [if_pos hg]
    refine ⟨by simp, ?_, ?_⟩
    · intro c hc
      rcases List.mem_append.1 hc with hc | hc
      · cases hcg : gtidGreater c.GTID ch.GTID with
        | false => rfl
        | true =>
          have := gtidGreater_trans _ _ _ hcg hg
          rw [hmax c hc] at this
          exact absurd this (by simp)
      · have : c = ch := by simpa using hc
        subst this
        exact gtidGreater_irrefl _
    · rw [List.find?_append]
      have hnone : seen.find? (fun c => c.GTID == ch.GTID) = none := by
        rw [List.find?_eq_none]
        intro c hc hceq
        have hceq' : c.GTID = ch.GTID := by simpa using hceq
        have := hmax c hc
        rw [hceq', hg] at this
        exact absurd this (by simp)
      simp [hnone]
  · have hg' : gtidGreater ch.GTID best.GTID = false := by simpa using hg
    rw [if_neg hg]
    refine ⟨by simp [hmem], ?_, ?_⟩
    · intro c hc
      rcases List.mem_append.1 hc with hc | hc
      · exact hmax c hc
      · have : c = ch := by simpa using hc
        subst this
        exact hg'
    · rw [List.find?_append, hfirst]
      rfl

theorem electInv_foldl (rest : List PodInfo) :
    ∀ (seen : List PodInfo) (best : PodInfo), ElectInv seen best →
      ElectInv (seen ++ rest) (rest.foldl challenge best) := by
  induction rest with
  | nil => intro seen best h; simpa using h
  | cons ch rest ih =>
    intro seen best h
    have := ih (seen ++ [ch]) (challenge best ch) (electInv_step seen best ch h)
    simpa using this

theorem elect_inv (first : PodInfo) (rest : List PodInfo) :
    ElectInv (first :: rest) (elect first rest) := by
  have h0 : ElectInv [first] first :=
    ⟨by simp, by intro c hc; simp at hc; subst hc; exact gtidGreater_irrefl _, by simp⟩
  simpa [elect] using electInv_foldl rest [first] first h0

/-! ## Role reconciler -/

theorem keptMaster_mem (masters : List PodInfo) (m : PodInfo)
    (h : keptMaster masters = some m) : m ∈ masters := by
  unfold keptMaster at h
  split at h
  · simp at h
  · split at h
    · simp at h; subst h; simp
    · simp at h
  · simp at h

theorem targetMaster_none_iff (pods : List PodInfo) :
    targetMaster pods = none ↔ (candidates pods).length < 2 := by
  unfold targetMaster
  split
  · next h => simp [h]
  · next h => simp [h]
  · next h =>
    rw [h]
    split <;> simp

theorem targetMaster_mem (pods : List PodInfo) (t : PodInfo)
    (h : targetMaster pods = some t) : t ∈ pods := by
  unfold targetMaster at h
  split at h
  · simp at h
  · simp at h
  · next first second rest hc =>
    split at h
    · next m hk =>
      simp at h; subst h
      exact (List.mem_filter.1 (keptMaster_mem _ _ hk)).1
    · simp at h; subst h
      have := (elect_inv first (second :: rest)).1
      rw [← hc] at this
      exact (List.mem_filter.1 this).1

theorem patchLabels_ok (patchErr : Nat → Option GoError) (targetName : GoString)
    (hok : ∀ i, patchErr i = none) :
    ∀ (pods : List PodInfo) (i : Nat),
      (patchLabels patchErr targetName i pods).err = none ∧
      (patchLabels patchErr targetName i pods).pods = pods.map (relabel targetName) := by
  intro pods
  induction pods with
  | nil => intro i; simp [patchLabels]
  | cons pod rest ih =>
    intro i
    obtain ⟨h1, h2⟩ := ih (i + 1)
    by_cases h : (pod.Role != desiredRole targetName pod) = true
    · simp only [patchLabels, hok, List.map_cons, relabel, if_pos h]
      exact ⟨h1, by rw [h2]⟩
    · simp only [patchLabels, List.map_cons, relabel, if_neg h]
      exact ⟨h1, by rw [h2]⟩

theorem patchLabels_err_ne_errHA (patchErr : Nat → Option GoError) (targetName : GoString) :
    ∀ (pods : List PodInfo) (i : Nat),
      (patchLabels patchErr targetName i pods).err ≠ some GoError.ErrHA := by
  intro pods
  induction pods with
  | nil => intro i; simp [patchLabels]
  | cons pod rest ih =>
    intro i
    by_cases h : (pod.Role != desiredRole targetName pod) = true
    · simp only [patchLabels, if_pos h]
      cases hp : patchErr i with
      | some e => simp
      | none => exact ih (i + 1)
    · simp only [patchLabels, if_neg h]
      exact ih (i + 1)

theorem master_ne_slave : master ≠ slave := by decide

theorem desiredRole_cases (targetName : GoString) (pod : PodInfo) :
    desiredRole targetName pod = master ∨ desiredRole targetName pod = slave := by
  unfold desiredRole
  split
  · exact Or.inl rfl
  · exact Or.inr rfl

theorem mapGet_mapSet (m : StringMap) (k v : GoString) : mapGet (mapSet m k v) k = some v := by
  simp [mapGet, mapSet, List.lookup]

theorem relabel_name (targetName : GoString) (pod : PodInfo) :
    (relabel targetName pod).Pod.Name = pod.Pod.Name := by
  unfold relabel
  split <;> simp [setRoleLabel]

/-- After the patch loop a member whose `Role` mirrored its label carries the desired role. -/
theorem relabel_carries (targetName : GoString) (pod : PodInfo)
    (hrole : pod.Role = roleOfLabels pod.Pod) :
    mapGet (relabel targetName pod).Pod.Labels roleKey = some (desiredRole targetName pod) := by
  unfold relabel
  by_cases h : pod.Role = desiredRole targetName pod
  · have hb : ¬ (pod.Role != desiredRole targetName pod) = true := by simp [h]
    rw [if_neg hb]
    rw [h] at hrole
    unfold roleOfLabels at hrole
    split at hrole
    · next val hv => rw [hv, ← hrole]
    · rcases desiredRole_cases targetName pod with hd | hd <;> rw [hd] at hrole <;>
        exact absurd hrole (by decide)
  · have hb : (pod.Role != desiredRole targetName pod) = true := by simpa using h
    rw [if_pos hb]
    exact mapGet_mapSet _ _ _

theorem filter_name_length_one (t : PodInfo) :
    ∀ (pods : List PodInfo), (pods.map (fun p => p.Pod.Name)).Nodup → t ∈ pods →
      (pods.filter (fun p => p.Pod.Name == t.Pod.Name)).length = 1 := by
  intro pods
  induction pods with
  | nil => intro _ h; simp at h
  | cons q rest ih =>
    intro hnd hmem
    rw [List.map_cons, List.nodup_cons] at hnd
    rcases List.mem_cons.1 hmem with h | h
    · subst h
      have hnone : rest.filter (fun p => p.Pod.Name == t.Pod.Name) = [] := by
        rw [List.filter_eq_nil_iff]
        intro p hp hpe
        have : p.Pod.Name = t.Pod.Name := by simpa using hpe
        exact hnd.1 (List.mem_map.2 ⟨p, hp, this⟩)
      simp [List.filter_cons, hnone]
    · have hne : q.Pod.Name ≠ t.Pod.Name := by
        intro he
        exact hnd.1 (List.mem_map.2 ⟨t, h, he.symm⟩)
      have hb : (q.Pod.Name == t.Pod.Name) = false := by simpa using hne
      rw [List.filter_cons, hb]
      exact ih hnd.2 h

/-- C1: on a snapshot with pairwise distinct pod names, at least two candidates, every
member's `Role` equal to its role label, and every label patch succeeding,
`reconcileRoles` returns without error, keeps the members and their order, and leaves
exactly one pod carrying `role=master` (the target) and every other pod, ready or not,
carrying `role=slave`. -/
theorem reconcileRoles_exactly_one_master (patchErr : Nat → Option GoError)
    (snapshot : ClusterSnapshot)
    (hnames : (snapshot.Pods.map (fun p => p.Pod.Name)).Nodup)
    (hcand : 2 ≤ (candidates snapshot.Pods).length)
    (hrole : ∀ p ∈ snapshot.Pods, p.Role = roleOfLabels p.Pod)
    (hok : ∀ i, patchErr i = none) :
    ∃ target, targetMaster snapshot.Pods = some target ∧ target ∈ snapshot.Pods ∧
      (reconcileRoles patchErr snapshot).err = none ∧
      (reconcileRoles patchErr snapshot).pods.map (fun p => p.Pod.Name)
        = snapshot.Pods.map (fun p => p.Pod.Name) ∧
      ((reconcileRoles patchErr snapshot).pods.filter (fun p => carriesRole p master)).length = 1 ∧
      ∀ p ∈ (reconcileRoles patchErr snapshot).pods,
        (p.Pod.Name = target.Pod.Name → carriesRole p master = true) ∧
        (p.Pod.Name ≠ target.Pod.Name → carriesRole p slave = true) := by
  cases ht : targetMaster snapshot.Pods with
  | none =>
    have := (targetMaster_none_iff snapshot.Pods).1 ht
    omega
  | some target =>
    have hmem := targetMaster_mem _ _ ht
    obtain ⟨herr, hpods⟩ := patchLabels_ok patchErr target.Pod.Name hok snapshot.Pods 0
    have hrec : reconcileRoles patchErr snapshot
        = patchLabels patchErr target.Pod.Name 0 snapshot.Pods := by
      simp [reconcileRoles, ht]
    refine ⟨target, rfl, hmem, ?_, ?_, ?_, ?_⟩
    · rw [hrec]; exact herr
    · rw [hrec, hpods, List.map_map]
      apply List.map_congr_left
      intro p _
      exact relabel_name _ p
    · rw [hrec, hpods, List.filter_map, List.length_map]
      have hcongr : snapshot.Pods.filter
            ((fun p => carriesRole p master) ∘ relabel target.Pod.Name)
          = snapshot.Pods.filter (fun p => p.Pod.Name == target.Pod.Name) := by
        apply List.filter_congr
        intro p hp
        simp only [Function.comp, carriesRole]
        rw [relabel_carries _ p (hrole p hp)]
        unfold desiredRole
        by_cases h : p.Pod.Name = target.Pod.Name
        · simp [h]
        · simp [h, master_ne_slave.symm]
      rw [hcongr]
      exact filter_name_length_one target _ hnames hmem
    · rw [hrec, hpods]
      intro p hp
      obtain ⟨q, hq, rfl⟩ := List.mem_map.1 hp
      have hl := relabel_carries target.Pod.Name q (hrole q hq)
      rw [relabel_name]
      unfold desiredRole at hl
      constructor
      · intro h
        simp only [carriesRole]
        rw [hl]; simp [h]
      · intro h
        simp only [carriesRole]
        rw [hl]; simp [h]

/-- A three-member snapshot meeting every hypothesis of C1: scenario E2. -/
theorem reconcileRoles_exactly_one_master_witness :
    ∃ target, targetMaster e2Snapshot.Pods = some target ∧ target ∈ e2Snapshot.Pods ∧
      (reconcileRoles (fun _ => none) e2Snapshot).err = none ∧
      (reconcileRoles (fun _ => none) e2Snapshot).pods.map (fun p => p.Pod.Name)
        = e2Snapshot.Pods.map (fun p => p.Pod.Name) ∧
      ((reconcileRoles (fun _ => none) e2Snapshot).pods.filter
        (fun p => carriesRole p master)).length = 1 ∧
      ∀ p ∈ (reconcileRoles (fun _ => none) e2Snapshot).pods,
        (p.Pod.Name = target.Pod.Name → carriesRole p master = true) ∧
        (p.Pod.Name ≠ target.Pod.Name → carriesRole p slave = true) :=
  reconcileRoles_exactly_one_master (fun _ => none) e2Snapshot (by decide) (by decide)
    (by decide) (fun _ => rfl)

/-- C2: `reconcileRoles` returns `(false, ErrHA)` exactly when fewer than two members are
both ready and connectable, whatever the members labelled master; in that case it issues no
label patch and leaves the snapshot untouched. -/
theorem reconcileRoles_errHA_iff (patchErr : Nat → Option GoError)
    (snapshot : ClusterSnapshot) :
    (((reconcileRoles patchErr snapshot).patched = false ∧
        (reconcileRoles patchErr snapshot).err = some GoError.ErrHA)
      ↔ (candidates snapshot.Pods).length < 2) ∧
    ((candidates snapshot.Pods).length < 2 →
      (reconcileRoles patchErr snapshot).calls = [] ∧
      (reconcileRoles patchErr snapshot).pods = snapshot.Pods) := by
  cases ht : targetMaster snapshot.Pods with
  | none =>
    have hlt := (targetMaster_none_iff snapshot.Pods).1 ht
    simp [reconcileRoles, ht, hlt]
  | some target =>
    have hge : ¬ (candidates snapshot.Pods).length < 2 := by
      intro h
      rw [(targetMaster_none_iff snapshot.Pods).2 h] at ht
      simp at ht
    have hrec : reconcileRoles patchErr snapshot
        = patchLabels patchErr target.Pod.Name 0 snapshot.Pods := by
      simp [reconcileRoles, ht]
    refine ⟨⟨fun h => ?_, fun h => absurd h hge⟩, fun h => absurd h hge⟩
    rw [hrec] at h
    exact absurd h.2 (patchLabels_err_ne_errHA _ _ _ _)

/-- C3: with at least two candidates, when exactly one member has `Role` master and that
member is ready and connectable, it is the target master, whatever the GTIDs are; the patch
loop of `reconcileRoles` then runs with its name. -/
theorem reconcileRoles_keeps_healthy_master (patchErr : Nat → Option GoError)
    (snapshot : ClusterSnapshot) (m : PodInfo)
    (hcand : 2 ≤ (candidates snapshot.Pods).length)
    (hone : currentMasters snapshot.Pods = [m])
    (hready : m.IsReady = true) (hconn : m.IsConnectable = true) :
    targetMaster snapshot.Pods = some m ∧
    reconcileRoles patchErr snapshot = patchLabels patchErr m.Pod.Name 0 snapshot.Pods := by
  have ht : targetMaster snapshot.Pods = some m := by
    unfold targetMaster
    split
    · next h => simp [h] at hcand
    · next h => simp [h] at hcand
    · simp [hone, keptMaster, hready, hconn]
  exact ⟨ht, by simp [reconcileRoles, ht]⟩

/-- C4: whenever an election runs (no member with `Role` master, a single one that is not
ready and connectable, or two or more), the target is a candidate that no candidate beats
under the order "longer GTID first, then byte-wise greater" (so every candidate has the same
GTID or a smaller one), and it is the first candidate in snapshot order with its GTID. -/
theorem election_picks_first_maximal (pods : List PodInfo)
    (hcand : 2 ≤ (candidates pods).length)
    (helect : currentMasters pods = [] ∨
      (∃ m, currentMasters pods = [m] ∧ (m.IsReady && m.IsConnectable) = false) ∨
      2 ≤ (currentMasters pods).length) :
    ∃ best, targetMaster pods = some best ∧ best ∈ candidates pods ∧
      (∀ c ∈ candidates pods, gtidGreater c.GTID best.GTID = false) ∧
      (∀ c ∈ candidates pods, c.GTID = best.GTID ∨ gtidGreater best.GTID c.GTID = true) ∧
      (candidates pods).find? (fun c => c.GTID == best.GTID) = some best := by
  have hk : keptMaster (currentMasters pods) = none := by
    rcases helect with h | ⟨m, h, hm⟩ | h
    · rw [h]; rfl
    · rw [h]; simp [keptMaster, hm]
    · unfold keptMaster
      split
      · rfl
      · next h' => rw [h'] at h; simp at h
      · rfl
  unfold targetMaster
  split
  · next h => simp [h] at hcand
  · next h => simp [h] at hcand
  · next first second rest hc =>
    rw [hk]
    have hinv := elect_inv first (second :: rest)
    rw [← hc] at hinv
    obtain ⟨hmem, hmax, hfirst⟩ := hinv
    refine ⟨elect first (second :: rest), rfl, hmem, hmax, ?_, hfirst⟩
    intro c hcm
    rcases gtidGreater_total c.GTID (elect first (second :: rest)).GTID with h | h | h
    · exact Or.inl h
    · rw [hmax c hcm] at h; exact absurd h (by simp)
    · exact Or.inr h

/-- Scenario E2: `c-0` is labelled master but is being deleted, `c-1` has GTID `uuid:1-100`
and `c-2` has `uuid:1-99`; the election runs and `c-1` wins. -/
theorem election_picks_first_maximal_witness :
    targetMaster e2Snapshot.Pods = some e2c1 ∧
    ∃ best, targetMaster e2Snapshot.Pods = some best ∧ best ∈ candidates e2Snapshot.Pods ∧
      (∀ c ∈ candidates e2Snapshot.Pods, gtidGreater c.GTID best.GTID = false) ∧
      (∀ c ∈ candidates e2Snapshot.Pods,
        c.GTID = best.GTID ∨ gtidGreater best.GTID c.GTID = true) ∧
      (candidates e2Snapshot.Pods).find? (fun c => c.GTID == best.GTID) = some best :=
  ⟨by decide, election_picks_first_maximal e2Snapshot.Pods (by decide)
    (Or.inr (Or.inl ⟨e2c0, by decide, by decide⟩))⟩

/-- A kept master: in scenario E2 once `c-1` is labelled master and `c-0` slave, `c-1` stays
the target although `c-2` now has the longer GTID. -/
theorem reconcileRoles_keeps_healthy_master_witness :
    targetMaster keepSnapshot.Pods = some keepC1 ∧
    reconcileRoles (fun _ => none) keepSnapshot
      = patchLabels (fun _ => none) keepC1.Pod.Name 0 keepSnapshot.Pods :=
  reconcileRoles_keeps_healthy_master (fun _ => none) keepSnapshot keepC1 (by decide)
    (by decide) (by decide) (by decide)

/-! ## Status writer -/

theorem wrap32_succ (n : Nat) (h : n + 1 < 2147483648) : wrap32 ((n : Int) + 1) = ((n + 1 : Nat) : Int) := by
  unfold wrap32
  push_cast
  omega

theorem wrap32_id (x : Int) (h1 : -2147483648 ≤ x) (h2 : x < 2147483648) : wrap32 x = x := by
  unfold wrap32
  omega

/-- The counters and the master pointer after the first loop of `updateStatus`, started from
counters `m0` and `s0`, on a snapshot short enough for the `int32` counters. -/
theorem foldl_statusStep (pods : List PodInfo) :
    ∀ (acc : StatusAcc) (m0 s0 : Nat), acc.masterCount = (m0 : Int) → acc.slaveCount = (s0 : Int) →
      m0 + pods.length < 2147483648 → s0 + pods.length < 2147483648 →
      (pods.foldl statusStep acc).masterCount = ((m0 + connectableWithRole master pods : Nat) : Int) ∧
      (pods.foldl statusStep acc).slaveCount = ((s0 + connectableWithRole slave pods : Nat) : Int) ∧
      ((pods.foldl statusStep acc).masterNode = none ↔
        acc.masterNode = none ∧ connectableWithRole master pods = 0) ∧
      (∀ m, (pods.foldl statusStep acc).masterNode = some m →
        acc.masterNode = some m ∨ m.IsConnectable = true) := by
  induction pods with
  | nil =>
    intro acc m0 s0 hm hs _ _
    refine ⟨?_, ?_, ?_, fun m h => Or.inl h⟩ <;> simp [connectableWithRole, hm, hs]
  | cons pod rest ih =>
    intro acc m0 s0 hm hs hml hsl
    simp only [List.length_cons] at hml hsl
    simp only [List.foldl_cons]
    by_cases hM : (pod.IsConnectable && pod.Role == master) = true
    · have hS : (pod.IsConnectable && pod.Role == slave) = false := by
        simp only [Bool.and_eq_true, beq_iff_eq] at hM
        simp [hM.2, master_ne_slave]
      have hstep : statusStep acc pod =
          { acc with masterCount := wrap32 (acc.masterCount + 1), masterNode := some pod,
                     podsStatus := acc.podsStatus ++
                       [{ Name := pod.Pod.Name, Role := pod.Role, IsReady := pod.IsReady,
                          IsConnectable := pod.IsConnectable }] } := by
        simp [statusStep, hM, hS]
      obtain ⟨h1, h2, h3, h4⟩ := ih (statusStep acc pod) (m0 + 1) s0
        (by rw [hstep, hm]; exact wrap32_succ m0 (by omega)) (by rw [hstep]; exact hs)
        (by omega) (by omega)
      have hcM : connectableWithRole master (pod :: rest) = connectableWithRole master rest + 1 := by
        simp [connectableWithRole, List.countP_cons, hM]
      have hcS : connectableWithRole slave (pod :: rest) = connectableWithRole slave rest := by
        simp [connectableWithRole, List.countP_cons, hS]
      refine ⟨?_, ?_, ?_, ?_⟩
      · rw [h1, hcM]; congr 1; omega
      · rw [h2, hcS]
      · rw [h3, hstep, hcM]; simp
      · intro m hmm
        rcases h4 m hmm with h | h
        · rw [hstep] at h
          simp only [Option.some.injEq] at h
          right; rw [← h]
          simp only [Bool.and_eq_true] at hM
          exact hM.1
        · exact Or.inr h
    · have hM' : (pod.IsConnectable && pod.Role == master) = false := by simpa using hM
      have hcM : connectableWithRole master (pod :: rest) = connectableWithRole master rest := by
        simp [connectableWithRole, List.countP_cons, hM']
      by_cases hS : (pod.IsConnectable && pod.Role == slave) = true
      · have hstep : statusStep acc pod =
            { acc with slaveCount := wrap32 (acc.slaveCount + 1),
                       podsStatus := acc.podsStatus ++
                         [{ Name := pod.Pod.Name, Role := pod.Role, IsReady := pod.IsReady,
                            IsConnectable := pod.IsConnectable }] } := by
          simp [statusStep, hM', hS]
        obtain ⟨h1, h2, h3, h4⟩ := ih (statusStep acc pod) m0 (s0 + 1)
          (by rw [hstep]; exact hm) (by rw [hstep, hs]; exact wrap32_succ s0 (by omega))
          (by omega) (by omega)
        have hcS : connectableWithRole slave (pod :: rest) = connectableWithRole slave rest + 1 := by
          simp [connectableWithRole, List.countP_cons, hS]
        refine ⟨?_, ?_, ?_, ?_⟩
        · rw [h1, hcM]
        · rw [h2, hcS]; congr 1; omega
        · rw [h3, hstep, hcM]
        · intro m hmm
          rcases h4 m hmm with h | h
          · rw [hstep] at h; exact Or.inl h
          · exact Or.inr h
      · have hS' : (pod.IsConnectable && pod.Role == slave) = false := by simpa using hS
        have hstep : statusStep acc pod =
            { acc with podsStatus := acc.podsStatus ++
                         [{ Name := pod.Pod.Name, Role := pod.Role, IsReady := pod.IsReady,
                            IsConnectable := pod.IsConnectable }] } := by
          simp [statusStep, hM', hS']
        obtain ⟨h1, h2, h3, h4⟩ := ih (statusStep acc pod) m0 s0
          (by rw [hstep]; exact hm) (by rw [hstep]; exact hs) (by omega) (by omega)
        have hcS : connectableWithRole slave (pod :: rest) = connectableWithRole slave rest := by
          simp [connectableWithRole, List.countP_cons, hS']
        refine ⟨?_, ?_, ?_, ?_⟩
        · rw [h1, hcM]
        · rw [h2, hcS]
        · rw [h3, hstep, hcM]
        · intro m hmm
          rcases h4 m hmm with h | h
          · rw [hstep] at h; exact Or.inl h
          · exact Or.inr h

theorem statusLoop_counts (pods : List PodInfo) (hlen : pods.length < 2147483648) :
    (statusLoop pods).masterCount = (connectableWithRole master pods : Int) ∧
    (statusLoop pods).slaveCount = (connectableWithRole slave pods : Int) ∧
    ((statusLoop pods).masterNode = none ↔ connectableWithRole master pods = 0) ∧
    (∀ m, (statusLoop pods).masterNode = some m → m.IsConnectable = true) := by
  obtain ⟨h1, h2, h3, h4⟩ := foldl_statusStep pods
    { masterCount := 0, slaveCount := 0, masterNode := none, podsStatus := [] } 0 0
    rfl rfl (by omega) (by omega)
  refine ⟨?_, ?_, ?_, ?_⟩
  · simpa [statusLoop] using h1
  · simpa [statusLoop] using h2
  · simpa [statusLoop] using h3
  · intro m hm
    rcases h4 m hm with h | h
    · simp at h
    · exact h

theorem isBootstrapped_iff (phase : GoString) : isBootstrapped phase = true ↔ adultPhase phase := by
  simp [isBootstrapped, adultPhase, or_assoc]

theorem updateStatus_updates (updateErr : Option GoError) (cluster : MysqlCluster)
    (snapshot : ClusterSnapshot) :
    ∀ s ∈ (updateStatus updateErr cluster snapshot).updates, s = computeStatus cluster snapshot := by
  intro s hs
  unfold updateStatus at hs
  by_cases h : (cluster.Status != computeStatus cluster snapshot) = true
  · simp only [h, if_true] at hs
    cases updateErr <;> simpa using hs
  · simp only [h] at hs
    simp at hs

theorem updateStatus_stored (updateErr : Option GoError) (cluster : MysqlCluster)
    (snapshot : ClusterSnapshot) :
    (updateStatus updateErr cluster snapshot).stored = cluster.Status ∨
    (updateStatus updateErr cluster snapshot).stored = computeStatus cluster snapshot := by
  unfold updateStatus
  by_cases h : (cluster.Status != computeStatus cluster snapshot) = true
  · simp only [h, if_true]
    cases updateErr <;> simp
  · simp only [h]
    simp

/-- The phase that `updateStatus` computes, against the reference table. -/
theorem computeStatus_phase (cluster : MysqlCluster) (snapshot : ClusterSnapshot)
    (hlen : snapshot.Pods.length < 2147483648)
    (hrep : ∀ d, cluster.Spec.Replicas = some d → -2147483648 < d ∧ d < 2147483648) :
    (computeStatus cluster snapshot).Phase =
      phaseTable (!timeIsZero cluster.DeletionTimestamp) cluster.Status.Phase
        (connectableWithRole master snapshot.Pods) (connectableWithRole slave snapshot.Pods)
        (cluster.Spec.Replicas.getD 3) snapshot.Pods.length := by
  obtain ⟨hm, hs, hnone, hconn⟩ := statusLoop_counts snapshot.Pods hlen
  have hdes : wrap32 (statusDesiredReplicas cluster - 1) = cluster.Spec.Replicas.getD 3 - 1 := by
    unfold statusDesiredReplicas
    cases hr : cluster.Spec.Replicas with
    | none => decide
    | some d =>
      have := hrep d hr
      simp only [Option.getD_some]
      exact wrap32_id _ (by omega) (by omega)
  show derivePhase cluster snapshot = _
  unfold derivePhase phaseTable
  by_cases hdel : timeIsZero cluster.DeletionTimestamp = true
  · simp only [hdel, Bool.not_true, Bool.false_eq_true, if_false]
    by_cases hb : isBootstrapped cluster.Status.Phase = true
    · have hb' := (isBootstrapped_iff _).1 hb
      unfold adultPhase at hb'
      rw [if_pos hb, if_pos hb']
      cases hmn : (statusLoop snapshot.Pods).masterNode with
      | none =>
        have h0 := hnone.1 hmn
        simp [h0]
      | some m =>
        have hne : connectableWithRole master snapshot.Pods ≠ 0 := by
          intro h0
          rw [hnone.2 h0] at hmn
          simp at hmn
        have hc := hconn m hmn
        simp only [hc, Bool.not_true, Bool.false_eq_true, if_false, hne]
        rw [hs, hdes]
    · have hb' : ¬ (cluster.Status.Phase = MysqlClusterPhaseRunning ∨
          cluster.Status.Phase = MysqlClusterPhaseDegraded ∨
          cluster.Status.Phase = MysqlClusterPhaseFailed) := by
        intro h
        exact hb ((isBootstrapped_iff _).2 h)
      rw [if_neg hb, if_neg hb', hm, hs]
      by_cases h1 : 1 ≤ connectableWithRole master snapshot.Pods ∧
          1 ≤ connectableWithRole slave snapshot.Pods
      · have : (decide ((connectableWithRole master snapshot.Pods : Int) ≥ 1) &&
            decide ((connectableWithRole slave snapshot.Pods : Int) ≥ 1)) = true := by
          simp only [Bool.and_eq_true, decide_eq_true_eq]
          omega
        rw [if_pos this, if_pos h1]
      · have : ¬ (decide ((connectableWithRole master snapshot.Pods : Int) ≥ 1) &&
            decide ((connectableWithRole slave snapshot.Pods : Int) ≥ 1)) = true := by
          simp only [Bool.and_eq_true, decide_eq_true_eq]
          omega
        rw [if_neg this, if_neg h1]
        by_cases h0 : snapshot.Pods.length = 0
        · simp [h0]
        · simp [h0]
  · have hdel' : timeIsZero cluster.DeletionTimestamp = false := by simpa using hdel
    simp [hdel']

/-- C5: on a snapshot short enough for the `int32` counters and a desired replica count
above the least `int32`, the phase that `updateStatus` computes (and sends, when it sends a
status) is the one of the reference table: Terminating under a deletion timestamp; for an
observed phase Running, Degraded or Failed: Failed without a connectable master, else
Degraded with fewer connectable slaves than desired replicas minus one (3 when unset), else
Running; otherwise Degraded with a connectable master and a connectable slave, else
Initializing on an empty snapshot, else Pending. -/
theorem updateStatus_phase_table (cluster : MysqlCluster) (snapshot : ClusterSnapshot)
    (hlen : snapshot.Pods.length < 2147483648)
    (hrep : ∀ d, cluster.Spec.Replicas = some d → -2147483648 < d ∧ d < 2147483648) :
    (computeStatus cluster snapshot).Phase =
      phaseTable (!timeIsZero cluster.DeletionTimestamp) cluster.Status.Phase
        (connectableWithRole master snapshot.Pods) (connectableWithRole slave snapshot.Pods)
        (cluster.Spec.Replicas.getD 3) snapshot.Pods.length ∧
    ∀ updateErr, ∀ s ∈ (updateStatus updateErr cluster snapshot).updates,
      s.Phase = phaseTable (!timeIsZero cluster.DeletionTimestamp) cluster.Status.Phase
        (connectableWithRole master snapshot.Pods) (connectableWithRole slave snapshot.Pods)
        (cluster.Spec.Replicas.getD 3) snapshot.Pods.length := by
  refine ⟨computeStatus_phase cluster snapshot hlen hrep, ?_⟩
  intro updateErr s hs
  rw [updateStatus_updates updateErr cluster snapshot s hs]
  exact computeStatus_phase cluster snapshot hlen hrep

/-- A bootstrapped cluster with three desired replicas observing scenario E2: no connectable
master, so the table and the code both give Failed. -/
theorem updateStatus_phase_table_witness :
    ((computeStatus runningCluster e2Snapshot).Phase =
      phaseTable (!timeIsZero runningCluster.DeletionTimestamp) runningCluster.Status.Phase
        (connectableWithRole master e2Snapshot.Pods) (connectableWithRole slave e2Snapshot.Pods)
        (runningCluster.Spec.Replicas.getD 3) e2Snapshot.Pods.length ∧
    ∀ updateErr, ∀ s ∈ (updateStatus updateErr runningCluster e2Snapshot).updates,
      s.Phase = phaseTable (!timeIsZero runningCluster.DeletionTimestamp)
        runningCluster.Status.Phase
        (connectableWithRole master e2Snapshot.Pods) (connectableWithRole slave e2Snapshot.Pods)
        (runningCluster.Spec.Replicas.getD 3) e2Snapshot.Pods.length) ∧
    (computeStatus runningCluster e2Snapshot).Phase = MysqlClusterPhaseFailed :=
  ⟨updateStatus_phase_table runningCluster e2Snapshot (by decide)
    (by intro d hd; cases hd; decide), by decide⟩

theorem derivePhase_adult (cluster : MysqlCluster) (snapshot : ClusterSnapshot)
    (hdel : timeIsZero cluster.DeletionTimestamp = true)
    (hphase : adultPhase cluster.Status.Phase) :
    adultPhase (derivePhase cluster snapshot) := by
  have hb := (isBootstrapped_iff _).2 hphase
  unfold derivePhase
  simp only [hdel, Bool.not_true, Bool.false_eq_true, if_false, hb, if_true]
  unfold adultPhase
  split
  · exact Or.inr (Or.inr rfl)
  · split
    · exact Or.inr (Or.inl rfl)
    · exact Or.inl rfl

theorem adultPhase_ne_empty (phase : GoString) (h : adultPhase phase) : (phase == []) = false := by
  rcases h with h | h | h <;> rw [h] <;> decide

/-- One cycle on a bootstrapped cluster without deletion timestamp: the stored phase stays
bootstrapped and so is every status payload sent. -/
theorem Reconcile_adult (env : CycleEnv) (cluster : MysqlCluster)
    (hdel : timeIsZero cluster.DeletionTimestamp = true)
    (hphase : adultPhase cluster.Status.Phase) :
    adultPhase (Reconcile env cluster).stored.Phase ∧
    ∀ s ∈ (Reconcile env cluster).statusUpdates, adultPhase s.Phase := by
  have hus : ∀ snapshot : ClusterSnapshot,
      adultPhase (updateStatus env.statusUpdateErr cluster snapshot).stored.Phase ∧
      ∀ s ∈ (updateStatus env.statusUpdateErr cluster snapshot).updates, adultPhase s.Phase := by
    intro snapshot
    constructor
    · rcases updateStatus_stored env.statusUpdateErr cluster snapshot with h | h
      · rw [h]; exact hphase
      · rw [h]; exact derivePhase_adult cluster snapshot hdel hphase
    · intro s hs
      rw [updateStatus_updates _ _ _ s hs]
      exact derivePhase_adult cluster snapshot hdel hphase
  have hne := adultPhase_ne_empty _ hphase
  unfold Reconcile
  simp only [hne, Bool.false_eq_true, if_false]
  cases env.getErr with
  | some e => exact ⟨hphase, by simp⟩
  | none =>
  cases env.secretErr with
  | some e => exact ⟨hphase, by simp⟩
  | none =>
  cases env.infraErr with
  | some e => exact ⟨hphase, by simp⟩
  | none =>
  cases env.listErr with
  | some e => exact ⟨hphase, by simp⟩
  | none =>
  cases env.usersErr with
  | some e => exact ⟨hphase, by simp⟩
  | none =>
  simp only
  cases (reconcileRoles env.patchErr env.snapshot).err with
  | some e =>
    simp only
    split
    · exact hus _
    · exact ⟨hphase, by simp⟩
  | none =>
    simp only
    split
    · exact hus _
    · cases env.settingsErr with
      | some e => exact ⟨hphase, by simp⟩
      | none => exact hus _

/-- C6: on a cluster without deletion timestamp whose stored phase is Running, Degraded or
Failed, whatever the cycles that follow (their snapshots, spec edits and failures), the
stored phase stays Running, Degraded or Failed and no cycle, through the phase initializer
or through `updateStatus`, sends a status whose phase is anything else, Pending and
Initializing included. -/
theorem phase_never_returns_to_startup (cycles : List Cycle) (cluster : MysqlCluster)
    (hdel : timeIsZero cluster.DeletionTimestamp = true)
    (hphase : adultPhase cluster.Status.Phase) :
    adultPhase (runCycles cycles cluster).1.Status.Phase ∧
    (∀ s ∈ (runCycles cycles cluster).2,
      adultPhase s.Phase ∧ s.Phase ≠ MysqlClusterPhasePending ∧
      s.Phase ≠ MysqlClusterPhaseInitializing) ∧
    ∀ snapshot, adultPhase (computeStatus cluster snapshot).Phase := by
  have hnot : ∀ p : GoString, adultPhase p →
      p ≠ MysqlClusterPhasePending ∧ p ≠ MysqlClusterPhaseInitializing := by
    intro p hp
    rcases hp with h | h | h <;> rw [h] <;> decide
  refine ⟨?_, ?_, fun snapshot => derivePhase_adult cluster snapshot hdel hphase⟩
  · induction cycles generalizing cluster with
    | nil => exact hphase
    | cons cycle rest ih =>
      simp only [runCycles]
      apply ih
      · exact hdel
      · exact (Reconcile_adult cycle.env { cluster with Spec := cycle.spec } hdel hphase).1
  · induction cycles generalizing cluster with
    | nil => intro s hs; simp [runCycles] at hs
    | cons cycle rest ih =>
      intro s hs
      simp only [runCycles, List.mem_append] at hs
      have hR := Reconcile_adult cycle.env { cluster with Spec := cycle.spec } hdel hphase
      rcases hs with hs | hs
      · exact ⟨hR.2 s hs, hnot _ (hR.2 s hs)⟩
      · exact ih { cluster with Spec := cycle.spec,
                                Status := (Reconcile cycle.env
                                  { cluster with Spec := cycle.spec }).stored } hdel hR.1 s hs

/-- One cycle of a bootstrapped cluster observing scenario E2 keeps a phase of a
bootstrapped cluster: the hypotheses of C6 at a concrete run, whose stored phase afterwards
is Failed. -/
theorem phase_never_returns_to_startup_witness :
    (adultPhase (runCycles [e2Cycle] runningCluster).1.Status.Phase ∧
      (∀ s ∈ (runCycles [e2Cycle] runningCluster).2,
        adultPhase s.Phase ∧ s.Phase ≠ MysqlClusterPhasePending ∧
        s.Phase ≠ MysqlClusterPhaseInitializing) ∧
      ∀ snapshot, adultPhase (computeStatus runningCluster snapshot).Phase) ∧
    (runCycles [e2Cycle] runningCluster).1.Status.Phase = MysqlClusterPhaseFailed :=
  ⟨phase_never_returns_to_startup [e2Cycle] runningCluster rfl (Or.inl rfl), by decide⟩

/-- C7, what the code does: the denominator of the slave display is the number of members
of the snapshot minus one, not the desired replica count minus one.  On the empty snapshot
of a cold start with three desired replicas the display reads 0 over -1, not `0/2`; with five
desired replicas and two members it is `1/1`, not `1/4`.  The master display is as
specified. -/
theorem slaveDisplay_uses_member_count :
    (computeStatus runningCluster emptySnapshot).SlaveDisplay = str "0/-1" ∧
    sprintfRatio 0 (runningCluster.Spec.Replicas.getD 3 - 1) = str "0/2" ∧
    (computeStatus runningCluster emptySnapshot).MasterDisplay = str "0/1" ∧
    (computeStatus fiveReplicaCluster keepSnapshot).SlaveDisplay = str "1/1" ∧
    sprintfRatio 1 (fiveReplicaCluster.Spec.Replicas.getD 3 - 1) = str "1/4" ∧
    (computeStatus fiveReplicaCluster keepSnapshot).MasterDisplay = str "1/1" := by
  decide

theorem computeStatus_displays (cluster : MysqlCluster) (snapshot : ClusterSnapshot) :
    (computeStatus cluster snapshot).MasterDisplay
      = sprintfRatio (computeStatus cluster snapshot).MasterReplicas 1 ∧
    (computeStatus cluster snapshot).SlaveDisplay
      = sprintfRatio (computeStatus cluster snapshot).SlaveReplicas
          ((snapshot.Pods.length : Int) - 1) :=
  ⟨rfl, rfl⟩

/-! ## Workload update path -/

theorem reconcileHash_replicas (sts : StatefulSet) (h : GoString) :
    (reconcileHash sts h).1.Replicas = sts.Replicas := by
  simp only [reconcileHash]
  split_ifs <;> rfl

theorem reconcileHash_flag (sts : StatefulSet) (h : GoString) :
    (reconcileHash sts h).2 = (nilMapIndex sts.TemplateAnnotations checksumKey != h) := by
  simp only [reconcileHash]
  split_ifs with hc
  · simp [hc]
  · simp at hc; simp [hc]

theorem reconcileReplicas_replicas (sts : StatefulSet) (needs : Bool) (c d : Int)
    (hc : sts.Replicas = some c) :
    (reconcileReplicas sts needs c d).1.Replicas = some (max c d) := by
  unfold reconcileReplicas
  split
  · next h => simp [max_eq_right (le_of_lt h)]
  · next h => simp [hc, max_eq_left (not_lt.1 h)]

theorem reconcileReplicas_flag (sts : StatefulSet) (needs : Bool) (c d : Int) :
    (reconcileReplicas sts needs c d).2 = (decide (d > c) || needs) := by
  unfold reconcileReplicas
  split
  · next h => simp [h]
  · next h => simp [h]

theorem reconcileReplicas_annotations (sts : StatefulSet) (needs : Bool) (c d : Int) :
    (reconcileReplicas sts needs c d).1.TemplateAnnotations = sts.TemplateAnnotations := by
  unfold reconcileReplicas
  split <;> rfl

/-- The update path of `getOrCreateStatefulSet` with both replica pointers set. -/
theorem getOrCreateStatefulSet_existing (env : StsEnv) (name h : GoString)
    (cluster : MysqlCluster) (existing : StatefulSet) (c d : Int)
    (hget : env.get = .ok existing) (hc : existing.Replicas = some c)
    (hd : cluster.Spec.Replicas = some d) :
    getOrCreateStatefulSet env name h cluster =
      if (reconcileReplicas (reconcileHash existing h).1 (reconcileHash existing h).2 c d).2 then
        match env.updateErr with
        | some e =>
          { result := .err (.wrap "4.3 update StatefulSet" e),
            calls := [.update (reconcileReplicas (reconcileHash existing h).1
              (reconcileHash existing h).2 c d).1],
            object := some (reconcileReplicas (reconcileHash existing h).1
              (reconcileHash existing h).2 c d).1,
            stored := some existing }
        | none =>
          { result := .ok (reconcileReplicas (reconcileHash existing h).1
              (reconcileHash existing h).2 c d).1,
            calls := [.update (reconcileReplicas (reconcileHash existing h).1
              (reconcileHash existing h).2 c d).1],
            object := some (reconcileReplicas (reconcileHash existing h).1
              (reconcileHash existing h).2 c d).1,
            stored := some (reconcileReplicas (reconcileHash existing h).1
              (reconcileHash existing h).2 c d).1 }
      else
        { result := .ok (reconcileReplicas (reconcileHash existing h).1
            (reconcileHash existing h).2 c d).1,
          calls := [],
          object := some (reconcileReplicas (reconcileHash existing h).1
            (reconcileHash existing h).2 c d).1,
          stored := some existing } := by
  have hr : (reconcileHash existing h).1.Replicas = some c := by
    rw [reconcileHash_replicas]; exact hc
  unfold getOrCreateStatefulSet
  simp only [hget]
  rw [show reconcileHash existing h = ((reconcileHash existing h).1, (reconcileHash existing h).2)
    from rfl]
  simp only [hr, hd]

theorem reconcile_noop (existing : StatefulSet) (h : GoString) (c d : Int) :
    (reconcileReplicas (reconcileHash existing h).1 (reconcileHash existing h).2 c d).2 = false →
    (reconcileReplicas (reconcileHash existing h).1 (reconcileHash existing h).2 c d).1
      = existing := by
  simp only [reconcileReplicas, reconcileHash]
  split_ifs <;> simp

/-- C8: on an existing workload with replica count `c` and a spec replica count `d`, the
workload object that `getOrCreateStatefulSet` holds when it ends, the object of every update
call it issues and the object it returns have replica count `max c d`, and so has the stored
workload once the update call (if any) succeeds; when `d` does not exceed `c` the stored
count stays `c` whatever happens, and an update call is issued only when the config digest
differs. -/
theorem replicas_reconciled_upward_only (env : StsEnv) (name h : GoString)
    (cluster : MysqlCluster) (existing : StatefulSet) (c d : Int)
    (hget : env.get = .ok existing) (hc : existing.Replicas = some c)
    (hd : cluster.Spec.Replicas = some d) :
    (∃ obj, (getOrCreateStatefulSet env name h cluster).object = some obj ∧
      obj.Replicas = some (max c d)) ∧
    (∀ obj, StsCall.update obj ∈ (getOrCreateStatefulSet env name h cluster).calls →
      obj.Replicas = some (max c d)) ∧
    (∀ obj, (getOrCreateStatefulSet env name h cluster).result = .ok obj →
      obj.Replicas = some (max c d)) ∧
    (env.updateErr = none →
      ∃ obj, (getOrCreateStatefulSet env name h cluster).result = .ok obj ∧
        (getOrCreateStatefulSet env name h cluster).stored = some obj ∧
        obj.Replicas = some (max c d)) ∧
    (d ≤ c →
      (∃ obj, (getOrCreateStatefulSet env name h cluster).stored = some obj ∧
        obj.Replicas = some c) ∧
      ((getOrCreateStatefulSet env name h cluster).calls = [] ↔
        nilMapIndex existing.TemplateAnnotations checksumKey = h)) := by
  rw [getOrCreateStatefulSet_existing env name h cluster existing c d hget hc hd]
  have hrep : (reconcileReplicas (reconcileHash existing h).1 (reconcileHash existing h).2
      c d).1.Replicas = some (max c d) :=
    reconcileReplicas_replicas _ _ c d (by rw [reconcileHash_replicas]; exact hc)
  have hflag : (reconcileReplicas (reconcileHash existing h).1 (reconcileHash existing h).2
      c d).2 = (decide (d > c) || nilMapIndex existing.TemplateAnnotations checksumKey != h) := by
    rw [reconcileReplicas_flag, reconcileHash_flag]
  have hnoop := reconcile_noop existing h c d
  generalize reconcileReplicas (reconcileHash existing h).1 (reconcileHash existing h).2 c d
    = step at hrep hflag hnoop
  by_cases hn : step.2 = true
  · rw [if_pos hn]
    cases hu : env.updateErr with
    | some e =>
      refine ⟨⟨step.1, rfl, hrep⟩, ?_, ?_, ?_, ?_⟩
      · intro obj ho; simp at ho; rw [ho]; exact hrep
      · intro obj ho; simp at ho
      · intro hcontra; simp at hcontra
      · intro hle
        refine ⟨⟨existing, rfl, hc⟩, ?_⟩
        rw [hn] at hflag
        have hgt : ¬ d > c := by omega
        simp [hgt] at hflag
        simp [hflag]
    | none =>
      refine ⟨⟨step.1, rfl, hrep⟩, ?_, ?_, ?_, ?_⟩
      · intro obj ho; simp at ho; rw [ho]; exact hrep
      · intro obj ho; simp at ho; rw [← ho]; exact hrep
      · intro _; exact ⟨step.1, rfl, rfl, hrep⟩
      · intro hle
        refine ⟨⟨step.1, rfl, by rw [hrep, max_eq_left hle]⟩, ?_⟩
        rw [hn] at hflag
        have hgt : ¬ d > c := by omega
        simp [hgt] at hflag
        simp [hflag]
  · rw [if_neg hn]
    have hn' : step.2 = false := by simpa using hn
    rw [hn'] at hflag
    have hf : ¬ d > c ∧ nilMapIndex existing.TemplateAnnotations checksumKey = h := by
      have := hflag.symm
      simp only [Bool.or_eq_false_iff, decide_eq_false_iff_not, bne_eq_false_iff_eq] at this
      exact this
    have hmax : max c d = c := max_eq_left (by omega)
    refine ⟨⟨step.1, rfl, hrep⟩, ?_, ?_, ?_, ?_⟩
    · intro obj ho; simp at ho
    · intro obj ho; simp at ho; rw [← ho]; exact hrep
    · intro _
      exact ⟨step.1, rfl, by rw [hnoop hn'], hrep⟩
    · intro _
      exact ⟨⟨existing, rfl, hc⟩, by simp [hf.2]⟩

/-- A workload of three replicas under a spec of five: the hypotheses of C8 at a concrete
input, where the update raises the count to five. -/
theorem replicas_reconciled_upward_only_witness :
    ((∃ obj, (getOrCreateStatefulSet exampleStsEnv exampleSts.Name exampleDigest
          fiveReplicaCluster).object = some obj ∧ obj.Replicas = some (max 3 5)) ∧
      (∀ obj, StsCall.update obj ∈ (getOrCreateStatefulSet exampleStsEnv exampleSts.Name
          exampleDigest fiveReplicaCluster).calls → obj.Replicas = some (max 3 5)) ∧
      (∀ obj, (getOrCreateStatefulSet exampleStsEnv exampleSts.Name exampleDigest
          fiveReplicaCluster).result = .ok obj → obj.Replicas = some (max 3 5)) ∧
      (exampleStsEnv.updateErr = none →
        ∃ obj, (getOrCreateStatefulSet exampleStsEnv exampleSts.Name exampleDigest
            fiveReplicaCluster).result = .ok obj ∧
          (getOrCreateStatefulSet exampleStsEnv exampleSts.Name exampleDigest
            fiveReplicaCluster).stored = some obj ∧
          obj.Replicas = some (max 3 5)) ∧
      ((5 : Int) ≤ 3 →
        (∃ obj, (getOrCreateStatefulSet exampleStsEnv exampleSts.Name exampleDigest
            fiveReplicaCluster).stored = some obj ∧ obj.Replicas = some 3) ∧
        ((getOrCreateStatefulSet exampleStsEnv exampleSts.Name exampleDigest
            fiveReplicaCluster).calls = [] ↔
          nilMapIndex exampleSts.TemplateAnnotations checksumKey = exampleDigest))) ∧
    (getOrCreateStatefulSet exampleStsEnv exampleSts.Name exampleDigest fiveReplicaCluster).calls
      = [.update { exampleSts with Replicas := some 5 }] :=
  ⟨replicas_reconciled_upward_only exampleStsEnv exampleSts.Name exampleDigest
    fiveReplicaCluster exampleSts 3 5 rfl rfl rfl, by decide⟩

theorem hexEncodeToString_ne_nil (sum : List Nat) (h : sum.length = 32) :
    hexEncodeToString sum ≠ [] := by
  cases sum with
  | nil => simp at h
  | cons b rest => simp [hexEncodeToString]

theorem nilMapIndex_eq (m : Option StringMap) (k : GoString) :
    nilMapIndex m k = (nilMapGet m k).getD [] := by
  cases m <;> rfl

theorem reconcileHash_annotation (sts : StatefulSet) (h : GoString)
    (hne : nilMapIndex sts.TemplateAnnotations checksumKey ≠ h) :
    nilMapGet (reconcileHash sts h).1.TemplateAnnotations checksumKey = some h := by
  have hb : (nilMapIndex sts.TemplateAnnotations checksumKey != h) = true := by simpa using hne
  simp only [reconcileHash, hb, if_true, nilMapGet]
  exact mapGet_mapSet _ _ _

/-- C9: on an existing workload (replica counts set on both sides) and a computed digest
`h`, the hex encoding of a 32-byte sum: when the template annotation `checksum/config` is
absent or differs from `h`, `getOrCreateStatefulSet` issues exactly one write call, an
update whose template annotation `checksum/config` is `h`; when the annotation is `h` and
the desired replica count does not exceed the current one, it issues no call. -/
theorem config_digest_forces_one_update (env : StsEnv) (name : GoString)
    (cluster : MysqlCluster) (existing : StatefulSet) (c d : Int) (sum : List Nat)
    (hget : env.get = .ok existing) (hc : existing.Replicas = some c)
    (hd : cluster.Spec.Replicas = some d) (hsum : sum.length = 32) :
    (nilMapGet existing.TemplateAnnotations checksumKey ≠ some (hexEncodeToString sum) →
      ∃ obj, (getOrCreateStatefulSet env name (hexEncodeToString sum) cluster).calls
          = [.update obj] ∧
        nilMapGet obj.TemplateAnnotations checksumKey = some (hexEncodeToString sum)) ∧
    (nilMapGet existing.TemplateAnnotations checksumKey = some (hexEncodeToString sum) →
      d ≤ c → (getOrCreateStatefulSet env name (hexEncodeToString sum) cluster).calls = []) := by
  have hne := hexEncodeToString_ne_nil sum hsum
  rw [getOrCreateStatefulSet_existing env name _ cluster existing c d hget hc hd]
  have hflag : (reconcileReplicas (reconcileHash existing (hexEncodeToString sum)).1
      (reconcileHash existing (hexEncodeToString sum)).2 c d).2
      = (decide (d > c) ||
          nilMapIndex existing.TemplateAnnotations checksumKey != hexEncodeToString sum) := by
    rw [reconcileReplicas_flag, reconcileHash_flag]
  have hann := reconcileReplicas_annotations (reconcileHash existing (hexEncodeToString sum)).1
    (reconcileHash existing (hexEncodeToString sum)).2 c d
  constructor
  · intro hdiff
    have hidx : nilMapIndex existing.TemplateAnnotations checksumKey ≠ hexEncodeToString sum := by
      rw [nilMapIndex_eq]
      cases hg : nilMapGet existing.TemplateAnnotations checksumKey with
      | none => simpa using hne.symm
      | some v =>
        rw [hg] at hdiff
        simpa using hdiff
    have htrue : (reconcileReplicas (reconcileHash existing (hexEncodeToString sum)).1
        (reconcileHash existing (hexEncodeToString sum)).2 c d).2 = true := by
      rw [hflag]; simp [hidx]
    rw [if_pos htrue]
    refine ⟨(reconcileReplicas (reconcileHash existing (hexEncodeToString sum)).1
        (reconcileHash existing (hexEncodeToString sum)).2 c d).1, ?_, ?_⟩
    · cases env.updateErr <;> rfl
    · rw [hann]
      exact reconcileHash_annotation existing _ hidx
  · intro hsame hle
    have hidx : nilMapIndex existing.TemplateAnnotations checksumKey = hexEncodeToString sum := by
      rw [nilMapIndex_eq, hsame]; rfl
    have hfalse : ¬ (reconcileReplicas (reconcileHash existing (hexEncodeToString sum)).1
        (reconcileHash existing (hexEncodeToString sum)).2 c d).2 = true := by
      rw [hflag]
      have : ¬ d > c := by omega
      simp [hidx, this]
    rw [if_neg hfalse]

/-- A workload annotated with a stale digest under an unchanged replica count: the
hypotheses of C9 at a concrete input, where exactly the annotation is updated. -/
theorem config_digest_forces_one_update_witness :
    ((nilMapGet exampleSts.TemplateAnnotations checksumKey
          ≠ some (hexEncodeToString exampleSum) →
        ∃ obj, (getOrCreateStatefulSet exampleStsEnv exampleSts.Name
              (hexEncodeToString exampleSum) runningCluster).calls = [.update obj] ∧
          nilMapGet obj.TemplateAnnotations checksumKey = some (hexEncodeToString exampleSum)) ∧
      (nilMapGet exampleSts.TemplateAnnotations checksumKey
          = some (hexEncodeToString exampleSum) →
        (3 : Int) ≤ 3 → (getOrCreateStatefulSet exampleStsEnv exampleSts.Name
              (hexEncodeToString exampleSum) runningCluster).calls = [])) ∧
    (getOrCreateStatefulSet exampleStsEnv exampleSts.Name (hexEncodeToString exampleSum)
        runningCluster).calls
      = [.update { exampleSts with
          TemplateAnnotations := some [(checksumKey, hexEncodeToString exampleSum)] }] :=
  ⟨config_digest_forces_one_update exampleStsEnv exampleSts.Name runningCluster exampleSts 3 3
    exampleSum rfl rfl rfl rfl, by decide⟩

/-! ## Snapshot builder -/

/-- C10: `isPodReady` is true exactly when the pod has no deletion timestamp, its phase is
Running and its condition list holds a condition of type Ready with status True; a pod with
a deletion timestamp is not ready, also when it is Running with Ready=True. -/
theorem isPodReady_iff (pod : Pod) :
    (isPodReady pod = true ↔
      pod.DeletionTimestamp = none ∧ pod.Status.Phase = PodRunning ∧
      ∃ cond ∈ pod.Status.Conditions, cond.Typ = PodReady ∧ cond.Status = ConditionTrue) ∧
    ∀ t : Nat, isPodReady { pod with DeletionTimestamp := some t } = false := by
  constructor
  · unfold isPodReady
    cases hdt : pod.DeletionTimestamp with
    | some t => simp
    | none =>
      by_cases hp : pod.Status.Phase = PodRunning
      · simp [hp]
      · simp [hp]
  · intro t
    simp [isPodReady]

theorem strLess_asymm (a b : GoString) (h : strLess a b = true) : strLess b a = false := by
  cases hba : strLess b a with
  | false => rfl
  | true =>
    have := strLess_trans a b a h hba
    rw [strLess_irrefl] at this
    exact absurd this (by simp)

theorem insertByName_perm (pod : Pod) : ∀ l : List Pod, (insertByName pod l).Perm (pod :: l) := by
  intro l
  induction l with
  | nil => exact List.Perm.refl _
  | cons q rest ih =>
    unfold insertByName
    split
    · exact ((List.Perm.cons q ih).trans (List.Perm.swap pod q rest))
    · exact List.Perm.refl _

theorem sortByName_perm : ∀ l : List Pod, (sortByName l).Perm l := by
  intro l
  induction l with
  | nil => exact List.Perm.refl _
  | cons p rest ih =>
    unfold sortByName
    exact (insertByName_perm p _).trans (List.Perm.cons p ih)

theorem insertByName_sorted (pod : Pod) :
    ∀ l : List Pod, l.Pairwise (fun a b => nameLess b a = false) →
      (insertByName pod l).Pairwise (fun a b => nameLess b a = false) := by
  intro l
  induction l with
  | nil => intro _; simp [insertByName]
  | cons q rest ih =>
    intro h
    rw [List.pairwise_cons] at h
    unfold insertByName
    by_cases hq : nameLess q pod = true
    · rw [if_pos hq, List.pairwise_cons]
      refine ⟨?_, ih h.2⟩
      intro b hb
      rcases (List.mem_cons.1 ((insertByName_perm pod rest).subset hb)) with hb | hb
      · rw [hb]; exact strLess_asymm _ _ hq
      · exact h.1 b hb
    · have hq' : nameLess q pod = false := by simpa using hq
      rw [if_neg hq, List.pairwise_cons, List.pairwise_cons]
      refine ⟨?_, h⟩
      intro b hb
      rcases List.mem_cons.1 hb with hb | hb
      · rw [hb]; exact hq'
      · -- `pod` is not above `q`, and `q` is not above `b`
        have hqb := h.1 b hb
        cases hbp : nameLess b pod with
        | false => rfl
        | true =>
          unfold nameLess at hbp hqb hq'
          rcases strLess_total q.Name pod.Name with e | e | e
          · rw [e] at hqb; rw [hqb] at hbp; exact absurd hbp (by simp)
          · rw [e] at hq'; exact absurd hq' (by simp)
          · have := strLess_trans _ _ _ hbp e
            rw [hqb] at this; exact absurd this (by simp)

theorem sortByName_sorts : SortsByName sortByName := by
  intro items
  refine ⟨sortByName_perm items, ?_⟩
  induction items with
  | nil => simp [sortByName]
  | cons p rest ih =>
    unfold sortByName
    exact insertByName_sorted p _ ih

/-- A slice with pairwise distinct names that `sort.Slice` left in order is strictly
ascending by name. -/
theorem sorted_strict (l : List Pod) (hs : l.Pairwise (fun a b => nameLess b a = false))
    (hn : (l.map (fun p => p.Name)).Nodup) :
    l.Pairwise (fun a b => strLess a.Name b.Name = true) := by
  have hne : l.Pairwise (fun a b => a.Name ≠ b.Name) := by
    rw [List.Nodup, List.pairwise_map] at hn
    exact hn
  refine (hs.and hne).imp ?_
  intro a b ⟨h1, h2⟩
  unfold nameLess at h1
  rcases strLess_total a.Name b.Name with e | e | e
  · exact absurd e h2
  · exact e
  · rw [h1] at e; exact absurd e (by simp)

/-- Two rearrangements of the same pods with pairwise distinct names, both in name order,
are the same slice. -/
theorem sorted_unique (l₁ l₂ : List Pod) (hp : l₁.Perm l₂)
    (h₁ : l₁.Pairwise (fun a b => nameLess b a = false))
    (h₂ : l₂.Pairwise (fun a b => nameLess b a = false))
    (hn : (l₁.map (fun p => p.Name)).Nodup) : l₁ = l₂ := by
  have hn₂ : (l₂.map (fun p => p.Name)).Nodup := (hp.map _).nodup_iff.1 hn
  haveI : IsAntisymm Pod (fun a b => strLess a.Name b.Name = true) :=
    ⟨fun a b hab hba => by
      rw [strLess_asymm _ _ hab] at hba
      exact absurd hba (by simp)⟩
  exact List.eq_of_perm_of_sorted hp (sorted_strict l₁ h₁ hn) (sorted_strict l₂ h₂ hn₂)

/-- C11: for every sort meeting the contract of `sort.Slice` and every two orderings of the
same listed pods with pairwise distinct names, `updateSnapshotWithPod` builds one and the
same snapshot; it holds exactly one member per listed pod, in strictly ascending byte-wise
name order, and whatever the probes answer, the election of `reconcileRoles` on it is the
same for both orderings. -/
theorem snapshot_independent_of_listing_order (sortSlice : List Pod → List Pod)
    (hsort : SortsByName sortSlice) (items₁ items₂ : List Pod) (snapshot : ClusterSnapshot)
    (hperm : items₁.Perm items₂) (hnames : (items₁.map (fun p => p.Name)).Nodup) :
    ∃ built, updateSnapshotWithPod sortSlice (.ok items₁) snapshot = .ok built ∧
      updateSnapshotWithPod sortSlice (.ok items₂) snapshot = .ok built ∧
      (built.Pods.map (fun m => m.Pod)).Perm items₁ ∧
      (∀ m ∈ built.Pods, m = memberOfPod m.Pod) ∧
      built.Pods.Pairwise (fun a b => strLess a.Pod.Name b.Pod.Name = true) ∧
      ∀ probe patchErr,
        targetMaster (updateSnapshotWithGTID probe
            { snapshot with Pods := (sortSlice items₁).map memberOfPod }).1.Pods
          = targetMaster (updateSnapshotWithGTID probe
            { snapshot with Pods := (sortSlice items₂).map memberOfPod }).1.Pods ∧
        reconcileRoles patchErr (updateSnapshotWithGTID probe
            { snapshot with Pods := (sortSlice items₁).map memberOfPod }).1
          = reconcileRoles patchErr (updateSnapshotWithGTID probe
            { snapshot with Pods := (sortSlice items₂).map memberOfPod }).1 := by
  obtain ⟨hp₁, hs₁⟩ := hsort items₁
  obtain ⟨hp₂, hs₂⟩ := hsort items₂
  have hn₁ : ((sortSlice items₁).map (fun p => p.Name)).Nodup := (hp₁.map _).nodup_iff.2 hnames
  have heq : sortSlice items₁ = sortSlice items₂ :=
    sorted_unique _ _ (hp₁.trans (hperm.trans hp₂.symm)) hs₁ hs₂ hn₁
  refine ⟨{ snapshot with Pods := (sortSlice items₁).map memberOfPod }, rfl, ?_, ?_, ?_, ?_, ?_⟩
  · simp only [updateSnapshotWithPod, heq]
  · simp only [List.map_map]
    have : (fun m : PodInfo => m.Pod) ∘ memberOfPod = id := by
      funext p; rfl
    rw [this, List.map_id]
    exact hp₁
  · intro m hm
    obtain ⟨p, _, rfl⟩ := List.mem_map.1 hm
    rfl
  · simp only [List.pairwise_map]
    exact sorted_strict _ hs₁ hn₁
  · intro probe patchErr
    rw [heq]
    exact ⟨rfl, rfl⟩

/-- Three pods listed in two different orders: the hypotheses of C11 at a concrete input,
with insertion sort for `sort.Slice`; both listings give the snapshot `c-0`, `c-1`, `c-2`. -/
theorem snapshot_independent_of_listing_order_witness :
    (∃ built, updateSnapshotWithPod sortByName (.ok listingA) emptySnapshot = .ok built ∧
      updateSnapshotWithPod sortByName (.ok listingB) emptySnapshot = .ok built ∧
      (built.Pods.map (fun m => m.Pod)).Perm listingA ∧
      (∀ m ∈ built.Pods, m = memberOfPod m.Pod) ∧
      built.Pods.Pairwise (fun a b => strLess a.Pod.Name b.Pod.Name = true) ∧
      ∀ probe patchErr,
        targetMaster (updateSnapshotWithGTID probe
            { emptySnapshot with Pods := (sortByName listingA).map memberOfPod }).1.Pods
          = targetMaster (updateSnapshotWithGTID probe
            { emptySnapshot with Pods := (sortByName listingB).map memberOfPod }).1.Pods ∧
        reconcileRoles patchErr (updateSnapshotWithGTID probe
            { emptySnapshot with Pods := (sortByName listingA).map memberOfPod }).1
          = reconcileRoles patchErr (updateSnapshotWithGTID probe
            { emptySnapshot with Pods := (sortByName listingB).map memberOfPod }).1) ∧
    (sortByName listingA).map (fun p => p.Name) = [str "c-0", str "c-1", str "c-2"] :=
  ⟨snapshot_independent_of_listing_order sortByName sortByName_sorts listingA listingB
    emptySnapshot (by decide) (by decide), by decide⟩

theorem probeMember_invariant (probe : Pod → GoString → Except GoError GoString)
    (rootPassword : GoString) (p : PodInfo)
    (h : p.IsConnectable = false ∧ p.GTID = []) :
    ((probeMember probe rootPassword p).IsConnectable = true →
      (probeMember probe rootPassword p).IsReady = true) ∧
    ((probeMember probe rootPassword p).IsConnectable = false →
      (probeMember probe rootPassword p).GTID = []) := by
  unfold probeMember
  by_cases hr : p.IsReady = true
  · simp only [hr, Bool.not_true, Bool.false_eq_true, if_false]
    cases probe p.Pod rootPassword with
    | error e => simp [h.2]
    | ok gtid => simp [hr]
  · have hr' : p.IsReady = false := by simpa using hr
    simp [hr', h.1, h.2]

/-- C12: on the snapshot that `updateSnapshotWithPod` builds from any listing, whatever each
probe of `updateSnapshotWithGTID` answers, every member that is connectable afterwards is
ready and every member that is not connectable has the empty GTID. -/
theorem connectable_implies_ready (sortSlice : List Pod → List Pod) (items : List Pod)
    (snapshot built : ClusterSnapshot) (probe : Pod → GoString → Except GoError GoString)
    (hbuilt : updateSnapshotWithPod sortSlice (.ok items) snapshot = .ok built) :
    ∀ m ∈ (updateSnapshotWithGTID probe built).1.Pods,
      (m.IsConnectable = true → m.IsReady = true) ∧ (m.IsConnectable = false → m.GTID = []) := by
  simp only [updateSnapshotWithPod, Except.ok.injEq] at hbuilt
  subst hbuilt
  intro m hm
  simp only [updateSnapshotWithGTID, List.map_map, List.mem_map, Function.comp] at hm
  obtain ⟨p, _, rfl⟩ := hm
  exact probeMember_invariant probe _ (memberOfPod p) ⟨rfl, rfl⟩

/-- The pods of scenario E2 with the probe of `c-1` failing: the hypothesis of C12 at a
concrete input; `c-0` is not ready and is not probed, `c-1` stays unconnectable with an
empty GTID, `c-2` becomes connectable. -/
theorem connectable_implies_ready_witness :
    (∀ m ∈ (updateSnapshotWithGTID exampleProbe
        { emptySnapshot with Pods := (sortByName listingA).map memberOfPod }).1.Pods,
      (m.IsConnectable = true → m.IsReady = true) ∧
      (m.IsConnectable = false → m.GTID = [])) ∧
    (updateSnapshotWithGTID exampleProbe
        { emptySnapshot with Pods := (sortByName listingA).map memberOfPod }).1.Pods.map
      (fun m => (m.IsReady, m.IsConnectable, m.GTID))
      = [(false, false, []), (true, false, []), (true, true, str "uuid:1-99")] :=
  ⟨connectable_implies_ready sortByName listingA emptySnapshot
    { emptySnapshot with Pods := (sortByName listingA).map memberOfPod } exampleProbe rfl,
   by decide⟩

/-! ## The cycle around the role reconciler -/

theorem reconcileRoles_errHA (patchErr : Nat → Option GoError) (snapshot : ClusterSnapshot)
    (h : (reconcileRoles patchErr snapshot).err = some GoError.ErrHA) :
    reconcileRoles patchErr snapshot
      = { patched := false, err := some .ErrHA, pods := snapshot.Pods, calls := [] } := by
  cases ht : targetMaster snapshot.Pods with
  | none => simp [reconcileRoles, ht]
  | some target =>
    have hrec : reconcileRoles patchErr snapshot
        = patchLabels patchErr target.Pod.Name 0 snapshot.Pods := by
      simp [reconcileRoles, ht]
    rw [hrec] at h
    exact absurd h (patchLabels_err_ne_errHA _ _ _ _)

theorem reconcileRoles_few_candidates (patchErr : Nat → Option GoError)
    (snapshot : ClusterSnapshot) (h : (candidates snapshot.Pods).length < 2) :
    reconcileRoles patchErr snapshot
      = { patched := false, err := some .ErrHA, pods := snapshot.Pods, calls := [] } := by
  simp [reconcileRoles, (targetMaster_none_iff snapshot.Pods).2 h]

/-- The cycle when the role reconciler returns `ErrHA`. -/
theorem Reconcile_of_errHA (env : CycleEnv) (cluster : MysqlCluster)
    (hreach : ReachesRoles env cluster)
    (herr : (reconcileRoles env.patchErr env.snapshot).err = some GoError.ErrHA) :
    Reconcile env cluster =
      { requeueAfter := 5, err := none,
        statusUpdates := (updateStatus env.statusUpdateErr cluster env.snapshot).updates,
        stored := (updateStatus env.statusUpdateErr cluster env.snapshot).stored,
        patches := [], ranInfrastructure := true, ranReplication := false } := by
  obtain ⟨h1, h2, h3, h4, h5, h6⟩ := hreach
  have hph : (cluster.Status.Phase == []) = false := by simpa using h2
  have hroles := reconcileRoles_errHA env.patchErr env.snapshot herr
  unfold Reconcile
  simp only [h1, hph, h3, h4, h5, h6, hroles, Bool.false_eq_true, if_false]
  simp [GoError.isErrHA]

/-- C13: in a cycle that reaches the role reconciler, when `reconcileRoles` returns `ErrHA`,
`Reconcile` returns `RequeueAfter` 5 seconds and a nil error, whatever the result of the
status update it attempts (the one of `updateStatus` on the snapshot); it issues no label
patch and does not run the replication configurator. -/
theorem errHA_requeues_after_five_seconds (env : CycleEnv) (cluster : MysqlCluster)
    (hreach : ReachesRoles env cluster)
    (herr : (reconcileRoles env.patchErr env.snapshot).err = some GoError.ErrHA) :
    (Reconcile env cluster).requeueAfter = 5 ∧ (Reconcile env cluster).err = none ∧
    (Reconcile env cluster).ranReplication = false ∧
    (Reconcile env cluster).patches = [] ∧
    (Reconcile env cluster).statusUpdates
      = (updateStatus env.statusUpdateErr cluster env.snapshot).updates ∧
    ∀ e, (Reconcile { env with statusUpdateErr := some e } cluster).requeueAfter = 5 ∧
      (Reconcile { env with statusUpdateErr := some e } cluster).err = none := by
  rw [Reconcile_of_errHA env cluster hreach herr]
  refine ⟨rfl, rfl, rfl, rfl, rfl, ?_⟩
  intro e
  rw [Reconcile_of_errHA { env with statusUpdateErr := some e } cluster hreach herr]
  exact ⟨rfl, rfl⟩

/-- A cycle that finds a single healthy member, with the status update failing: the
hypotheses of C13 at a concrete input. -/
theorem errHA_requeues_after_five_seconds_witness :
    (Reconcile { loneSlaveEnv with statusUpdateErr := some (.external 409) }
        runningCluster).requeueAfter = 5 ∧
    (Reconcile { loneSlaveEnv with statusUpdateErr := some (.external 409) }
        runningCluster).err = none ∧
    (Reconcile { loneSlaveEnv with statusUpdateErr := some (.external 409) }
        runningCluster).ranReplication = false ∧
    (Reconcile { loneSlaveEnv with statusUpdateErr := some (.external 409) }
        runningCluster).patches = [] ∧
    (Reconcile { loneSlaveEnv with statusUpdateErr := some (.external 409) }
        runningCluster).statusUpdates
      = (updateStatus (some (.external 409)) runningCluster loneSlaveSnapshot).updates ∧
    ∀ e, (Reconcile { { loneSlaveEnv with statusUpdateErr := some (.external 409) } with
        statusUpdateErr := some e } runningCluster).requeueAfter = 5 ∧
      (Reconcile { { loneSlaveEnv with statusUpdateErr := some (.external 409) } with
        statusUpdateErr := some e } runningCluster).err = none :=
  errHA_requeues_after_five_seconds
    { loneSlaveEnv with statusUpdateErr := some (.external 409) } runningCluster
    ⟨rfl, by decide, rfl, rfl, rfl, rfl⟩ (by decide)

/-- C14 as stated fails: with `c-0` labelled master but gone and `c-1`, labelled slave, the
only ready and connectable pod, `reconcileRoles` returns `ErrHA` and the status written
counts one slave, not zero. -/
theorem insufficient_members_slave_counted :
    (candidates loneSlaveSnapshot.Pods).length = 1 ∧
    (reconcileRoles loneSlaveEnv.patchErr loneSlaveSnapshot).err = some GoError.ErrHA ∧
    (Reconcile loneSlaveEnv runningCluster).statusUpdates.map
        (fun s => (s.MasterReplicas, s.SlaveReplicas, s.Phase))
      = [(0, 1, MysqlClusterPhaseFailed)] := by
  decide

theorem connectable_counts_le (pods : List PodInfo)
    (hinv : ∀ p ∈ pods, p.IsConnectable = true → p.IsReady = true) :
    connectableWithRole master pods + connectableWithRole slave pods
      ≤ (candidates pods).length := by
  induction pods with
  | nil => simp [connectableWithRole, candidates]
  | cons p rest ih =>
    have ih' := ih (fun q hq => hinv q (List.mem_cons_of_mem _ hq))
    have hp := hinv p (List.mem_cons_self _ _)
    simp only [connectableWithRole, candidates, List.countP_cons, List.filter_cons] at ih' ⊢
    by_cases hc : p.IsConnectable = true
    · have hr := hp hc
      by_cases hm : p.Role = master
      · have hs : ¬ p.Role = slave := by rw [hm]; exact master_ne_slave
        simp [hc, hr, hm, master_ne_slave]
        omega
      · by_cases hs : p.Role = slave
        · simp [hc, hr, hs, master_ne_slave.symm]
          omega
        · simp [hc, hr, hm, hs]
          omega
    · have hc' : p.IsConnectable = false := by simpa using hc
      simpa [hc'] using ih'

/-- C14, amended: in a cycle that reaches the role reconciler with exactly one ready and
connectable member (connectable members being ready), on a cluster without deletion
timestamp and with at least two desired replicas, `Reconcile` requeues after 5 seconds
without error and every status it sends has master count 0 or 1 and slave count 0 or 1,
at most one of them being 1; its phase is Pending when the previous phase is not Running,
Degraded or Failed, and otherwise Failed with no connectable master or Degraded with one;
it is never Running. -/
theorem insufficient_members_status (env : CycleEnv) (cluster : MysqlCluster)
    (hreach : ReachesRoles env cluster)
    (hone : (candidates env.snapshot.Pods).length = 1)
    (hinv : ∀ p ∈ env.snapshot.Pods, p.IsConnectable = true → p.IsReady = true)
    (hlen : env.snapshot.Pods.length < 2147483648)
    (hdel : timeIsZero cluster.DeletionTimestamp = true)
    (hrep : ∀ d, cluster.Spec.Replicas = some d → 2 ≤ d ∧ d < 2147483648) :
    (Reconcile env cluster).requeueAfter = 5 ∧ (Reconcile env cluster).err = none ∧
    ∀ s ∈ (Reconcile env cluster).statusUpdates,
      (s.MasterReplicas = 0 ∨ s.MasterReplicas = 1) ∧
      (s.SlaveReplicas = 0 ∨ s.SlaveReplicas = 1) ∧
      s.MasterReplicas + s.SlaveReplicas ≤ 1 ∧
      (¬ adultPhase cluster.Status.Phase → s.Phase = MysqlClusterPhasePending) ∧
      (adultPhase cluster.Status.Phase →
        (s.MasterReplicas = 0 ∧ s.Phase = MysqlClusterPhaseFailed) ∨
        (s.MasterReplicas = 1 ∧ s.SlaveReplicas = 0 ∧ s.Phase = MysqlClusterPhaseDegraded)) ∧
      s.Phase ≠ MysqlClusterPhaseRunning := by
  have herr : (reconcileRoles env.patchErr env.snapshot).err = some GoError.ErrHA := by
    rw [reconcileRoles_few_candidates env.patchErr env.snapshot (by omega)]
  rw [Reconcile_of_errHA env cluster hreach herr]
  refine ⟨rfl, rfl, ?_⟩
  intro s hs
  simp only at hs
  rw [updateStatus_updates env.statusUpdateErr cluster env.snapshot s hs]
  obtain ⟨hm, hsl, _, _⟩ := statusLoop_counts env.snapshot.Pods hlen
  have hsum := connectable_counts_le env.snapshot.Pods hinv
  rw [hone] at hsum
  have hphase := computeStatus_phase cluster env.snapshot hlen
    (fun d hd => by have := hrep d hd; omega)
  have hM : (computeStatus cluster env.snapshot).MasterReplicas
      = (connectableWithRole master env.snapshot.Pods : Int) := hm
  have hS : (computeStatus cluster env.snapshot).SlaveReplicas
      = (connectableWithRole slave env.snapshot.Pods : Int) := hsl
  have hdes : (2 : Int) ≤ cluster.Spec.Replicas.getD 3 := by
    cases hr : cluster.Spec.Replicas with
    | none => decide
    | some d => simpa using (hrep d hr).1
  have hlen0 : env.snapshot.Pods.length ≠ 0 := by
    intro h0
    have : env.snapshot.Pods = [] := List.length_eq_zero.1 h0
    rw [this] at hone
    simp [candidates] at hone
  rw [hM, hS, hphase]
  generalize connectableWithRole master env.snapshot.Pods = m at hsum ⊢
  generalize connectableWithRole slave env.snapshot.Pods = n at hsum ⊢
  generalize cluster.Spec.Replicas.getD 3 = d at hdes ⊢
  simp only [hdel, Bool.not_true]
  have hcases : (m = 0 ∧ n = 0) ∨ (m = 1 ∧ n = 0) ∨ (m = 0 ∧ n = 1) := by omega
  have hRD : MysqlClusterPhaseRunning ≠ MysqlClusterPhaseDegraded := by decide
  have hRF : MysqlClusterPhaseRunning ≠ MysqlClusterPhaseFailed := by decide
  have hRP : MysqlClusterPhaseRunning ≠ MysqlClusterPhasePending := by decide
  by_cases hb : adultPhase cluster.Status.Phase
  · have hb' := hb
    unfold adultPhase at hb'
    rcases hcases with ⟨rfl, rfl⟩ | ⟨rfl, rfl⟩ | ⟨rfl, rfl⟩
    · simp [phaseTable, hb', hb, hRF.symm]
    · simp [phaseTable, hb', hb, hRD.symm]
      exact ⟨fun h => by omega, by omega⟩
    · simp [phaseTable, hb', hb, hRF.symm]
  · have hb' := hb
    unfold adultPhase at hb'
    rcases hcases with ⟨rfl, rfl⟩ | ⟨rfl, rfl⟩ | ⟨rfl, rfl⟩ <;>
      simp [phaseTable, hb', hb, hlen0, hRP.symm]

/-- The cycle of the counterexample meets every hypothesis of the amended C14: a single
healthy member labelled slave, on a bootstrapped cluster with three desired replicas. -/
theorem insufficient_members_status_witness :
    (Reconcile loneSlaveEnv runningCluster).requeueAfter = 5 ∧
    (Reconcile loneSlaveEnv runningCluster).err = none ∧
    ∀ s ∈ (Reconcile loneSlaveEnv runningCluster).statusUpdates,
      (s.MasterReplicas = 0 ∨ s.MasterReplicas = 1) ∧
      (s.SlaveReplicas = 0 ∨ s.SlaveReplicas = 1) ∧
      s.MasterReplicas + s.SlaveReplicas ≤ 1 ∧
      (¬ adultPhase runningCluster.Status.Phase → s.Phase = MysqlClusterPhasePending) ∧
      (adultPhase runningCluster.Status.Phase →
        (s.MasterReplicas = 0 ∧ s.Phase = MysqlClusterPhaseFailed) ∨
        (s.MasterReplicas = 1 ∧ s.SlaveReplicas = 0 ∧ s.Phase = MysqlClusterPhaseDegraded)) ∧
      s.Phase ≠ MysqlClusterPhaseRunning :=
  insufficient_members_status loneSlaveEnv runningCluster
    ⟨rfl, by decide, rfl, rfl, rfl, rfl⟩ (by decide) (by decide) (by decide) rfl
    (by intro d hd; cases hd; decide)

theorem patchLabels_roles (patchErr : Nat → Option GoError) (targetName : GoString) :
    ∀ (pods : List PodInfo) (i : Nat),
      (patchLabels patchErr targetName i pods).pods.map (fun p => p.Role)
        = pods.map (fun p => p.Role) := by
  intro pods
  induction pods with
  | nil => intro i; simp [patchLabels]
  | cons pod rest ih =>
    intro i
    by_cases h : (pod.Role != desiredRole targetName pod) = true
    · simp only [patchLabels, if_pos h]
      cases patchErr i with
      | some e => simp [setRoleLabel]
      | none => simp [setRoleLabel, ih (i + 1)]
    · simp only [patchLabels, if_neg h]
      simp [ih (i + 1)]

/-- C15, what the code does: in scenario E2 `reconcileRoles` patches `c-0` to slave and
`c-1` to master and returns changed; the status that `Reconcile` then sends still names no
current master and lists `c-0` as master and `c-1` as slave, because the patch loop writes
the pod labels while `updateStatus` reads the `Role` fields taken before the patch. -/
theorem status_after_patch_keeps_old_roles :
    targetMaster e2Snapshot.Pods = some e2c1 ∧
    (reconcileRoles e2Cycle.env.patchErr e2Snapshot).patched = true ∧
    (Reconcile e2Cycle.env runningCluster).patches
      = [{ Name := str "c-0", Role := slave }, { Name := str "c-1", Role := master }] ∧
    (Reconcile e2Cycle.env runningCluster).statusUpdates.map
        (fun s => (s.CurrentMaster, s.Pods.map (fun m => (m.Name, m.Role))))
      = [([], [(str "c-0", master), (str "c-1", slave), (str "c-2", slave)])] := by
  decide

/-! ## Replication configurator and user reconciler -/

theorem isReplicatingCorrectly_true_iff (query : Except GoError SlaveStatusRows)
    (masterHost : GoString) :
    isReplicatingCorrectly query masterHost = .ok true ↔
      ∃ result values rest columns, query = .ok result ∧ result.rows = values :: rest ∧
        result.columns = .ok columns ∧ result.scanErr = none ∧
        equalFoldYes (mapIndex (statusMapOf columns values) (str "Slave_IO_Running")) = true ∧
        equalFoldYes (mapIndex (statusMapOf columns values) (str "Slave_SQL_Running")) = true ∧
        mapIndex (statusMapOf columns values) (str "Master_Host") = masterHost := by
  constructor
  · intro h
    unfold isReplicatingCorrectly at h
    cases query with
    | error e => simp at h
    | ok result =>
      simp only at h
      cases hrows : result.rows with
      | nil => rw [hrows] at h; simp at h
      | cons values rest =>
        rw [hrows] at h
        simp only at h
        cases hcols : result.columns with
        | error e => rw [hcols] at h; simp at h
        | ok columns =>
          rw [hcols] at h
          simp only at h
          cases hscan : result.scanErr with
          | some e => rw [hscan] at h; simp at h
          | none =>
            rw [hscan] at h
            simp only [Except.ok.injEq, rowConverged, Bool.and_eq_true, beq_iff_eq] at h
            exact ⟨result, values, rest, columns, rfl, hrows, hcols, hscan, h.1.1, h.1.2, h.2⟩
  · rintro ⟨result, values, rest, columns, rfl, hrows, hcols, hscan, h1, h2, h3⟩
    simp [isReplicatingCorrectly, hrows, hcols, hscan, rowConverged, h1, h2, h3]

/-- C16, amended: when `SET GLOBAL read_only=1` succeeds and the `SHOW SLAVE STATUS` probe
returns without error, `configureSlave` issues only these two statements if and only if
the probe returned at least one row whose first row has `Slave_IO_Running` and
`Slave_SQL_Running` equal to `Yes` up to letter case and `Master_Host` equal to the target
host, and then it returns no error; otherwise it goes on with `STOP SLAVE`, and when all four
statements succeed it issues `STOP SLAVE`, `RESET SLAVE ALL`, `CHANGE MASTER TO`,
`START SLAVE` in that order and returns no error. -/
theorem configureSlave_skips_iff_first_row_converged (exec : SqlStmt → Option GoError)
    (query : Except GoError SlaveStatusRows) (masterHost replPwd : GoString) (converged : Bool)
    (hro : exec setReadOnly = none)
    (hq : isReplicatingCorrectly query masterHost = .ok converged) :
    ((configureSlave exec query masterHost replPwd).issued = [setReadOnly, showSlaveStatus]
      ↔ converged = true) ∧
    (converged = true ↔
      ∃ result values rest columns, query = .ok result ∧ result.rows = values :: rest ∧
        result.columns = .ok columns ∧ result.scanErr = none ∧
        equalFoldYes (mapIndex (statusMapOf columns values) (str "Slave_IO_Running")) = true ∧
        equalFoldYes (mapIndex (statusMapOf columns values) (str "Slave_SQL_Running")) = true ∧
        mapIndex (statusMapOf columns values) (str "Master_Host") = masterHost) ∧
    (converged = true → (configureSlave exec query masterHost replPwd).err = none) ∧
    (converged = false →
      ∃ tail, (configureSlave exec query masterHost replPwd).issued
        = setReadOnly :: showSlaveStatus :: stopSlave :: tail) ∧
    (converged = false → exec stopSlave = none → exec resetSlaveAll = none →
      exec (changeMaster masterHost replPwd) = none → exec startSlave = none →
      (configureSlave exec query masterHost replPwd).issued
        = [setReadOnly, showSlaveStatus, stopSlave, resetSlaveAll,
           changeMaster masterHost replPwd, startSlave] ∧
      (configureSlave exec query masterHost replPwd).err = none) := by
  have hiff := isReplicatingCorrectly_true_iff query masterHost
  cases converged with
  | true =>
    refine ⟨?_, ?_, ?_, ?_, ?_⟩
    · simp [configureSlave, hro, hq]
    · simpa [hq] using hiff
    · intro _; simp [configureSlave, hro, hq]
    · intro h; simp at h
    · intro h; simp at h
  | false =>
    refine ⟨?_, ?_, ?_, ?_, ?_⟩
    · simp only [configureSlave, hro, hq, slaveStatements, execSeq]
      cases exec stopSlave <;> simp
    · simpa [hq] using hiff
    · intro h; simp at h
    · intro _
      simp only [configureSlave, hro, hq, slaveStatements, execSeq]
      cases exec stopSlave <;> simp
    · intro _ h1 h2 h3 h4
      simp [configureSlave, hro, hq, slaveStatements, execSeq, h1, h2, h3, h4]

/-- C16 as stated fails: a probe that returns two rows, the first one converged, makes
`configureSlave` stop after the probe although the probe did not return exactly one row;
and so does a single row whose thread columns read `yes` in lower case. -/
theorem configureSlave_reads_first_row_only :
    (configureSlave (fun _ => none) (.ok twoChannelStatus) exampleMasterHost (str "p")).issued
      = [setReadOnly, showSlaveStatus] ∧
    twoChannelStatus.rows.length = 2 ∧
    specConverged twoChannelStatus exampleMasterHost = false ∧
    (configureSlave (fun _ => none) (.ok lowerCaseStatus) exampleMasterHost (str "p")).issued
      = [setReadOnly, showSlaveStatus] ∧
    specConverged lowerCaseStatus exampleMasterHost = false := by
  decide

/-- The two-row probe of the counterexample meets the hypotheses of the amended C16:
its first row is converged, so only the two statements are issued. -/
theorem configureSlave_skips_iff_first_row_converged_witness :
    ((configureSlave (fun _ => none) (.ok twoChannelStatus) exampleMasterHost (str "p")).issued
        = [setReadOnly, showSlaveStatus] ↔ true = true) ∧
    (true = true ↔
      ∃ result values rest columns, Except.ok twoChannelStatus = Except.ok (ε := GoError) result ∧
        result.rows = values :: rest ∧
        result.columns = .ok columns ∧ result.scanErr = none ∧
        equalFoldYes (mapIndex (statusMapOf columns values) (str "Slave_IO_Running")) = true ∧
        equalFoldYes (mapIndex (statusMapOf columns values) (str "Slave_SQL_Running")) = true ∧
        mapIndex (statusMapOf columns values) (str "Master_Host") = exampleMasterHost) ∧
    (true = true →
      (configureSlave (fun _ => none) (.ok twoChannelStatus) exampleMasterHost (str "p")).err
        = none) ∧
    (true = false →
      ∃ tail, (configureSlave (fun _ => none) (.ok twoChannelStatus) exampleMasterHost
          (str "p")).issued = setReadOnly :: showSlaveStatus :: stopSlave :: tail) ∧
    (true = false → (fun _ => none : SqlStmt → Option GoError) stopSlave = none →
      (fun _ => none : SqlStmt → Option GoError) resetSlaveAll = none →
      (fun _ => none : SqlStmt → Option GoError) (changeMaster exampleMasterHost (str "p")) = none →
      (fun _ => none : SqlStmt → Option GoError) startSlave = none →
      (configureSlave (fun _ => none) (.ok twoChannelStatus) exampleMasterHost (str "p")).issued
        = [setReadOnly, showSlaveStatus, stopSlave, resetSlaveAll,
           changeMaster exampleMasterHost (str "p"), startSlave] ∧
      (configureSlave (fun _ => none) (.ok twoChannelStatus) exampleMasterHost (str "p")).err
        = none) :=
  configureSlave_skips_iff_first_row_converged (fun _ => none) (.ok twoChannelStatus)
    exampleMasterHost (str "p") true rfl rfl

theorem execSeq_issued_prefix (exec : SqlStmt → Option GoError) :
    ∀ stmts : List (SqlStmt × String),
      (execSeq exec stmts).issued <+: stmts.map (fun s => s.1) := by
  intro stmts
  induction stmts with
  | nil => simp [execSeq]
  | cons s rest ih =>
    obtain ⟨stmt, msg⟩ := s
    cases h : exec stmt with
    | some e =>
      simp only [execSeq, h, List.map_cons]
      exact ⟨rest.map (fun s => s.1), by simp⟩
    | none =>
      simp only [execSeq, h, List.map_cons]
      obtain ⟨t, ht⟩ := ih
      exact ⟨t, by simp [ht]⟩

/-- C17, what the code does: the statements of the user reconciler have texts that do not
depend on the passwords, which travel as bound arguments; but `configureSlave` formats the
replication password into the text of `CHANGE MASTER TO` and binds no argument, so two
replication passwords give two different statement texts. -/
theorem changeMaster_text_carries_password :
    (∀ root₁ repl₁ root₂ repl₂ : GoString,
      (userStatements root₁ repl₁).map (fun s => s.1.text)
        = (userStatements root₂ repl₂).map (fun s => s.1.text)) ∧
    (∀ openErr pingErr exec root repl,
      (reconcileUserForPod openErr pingErr exec root repl).issued
        <+: (userStatements root repl).map (fun s => s.1)) ∧
    (∀ host pwd : GoString,
      (changeMaster host pwd).args = [] ∧
      ∃ before after, (changeMaster host pwd).text = before ++ pwd ++ after) ∧
    (configureSlave (fun _ => none) (.ok noSlaveStatus) exampleMasterHost (str "a")).issued.map
        (fun s => s.text)
      ≠ (configureSlave (fun _ => none) (.ok noSlaveStatus) exampleMasterHost
          (str "b")).issued.map (fun s => s.text) ∧
    (configureSlave (fun _ => none) (.ok noSlaveStatus) exampleMasterHost
        (str "x', MASTER_USER='root")).issued.map (fun s => s.args)
      = [[], [], [], [], [], []] := by
  refine ⟨fun _ _ _ _ => rfl, ?_, ?_, by decide, by decide⟩
  · intro openErr pingErr exec root repl
    unfold reconcileUserForPod
    cases openErr with
    | some e => exact List.nil_prefix
    | none =>
      cases pingErr with
      | some e => exact List.nil_prefix
      | none => exact execSeq_issued_prefix exec _
  · intro host pwd
    refine ⟨rfl, str "\n\t\tCHANGE MASTER TO \n\t\tMASTER_HOST='" ++ host ++
      str "', \n\t\tMASTER_USER='repl', \n\t\tMASTER_PASSWORD='",
      str "', \n\t\tMASTER_PORT=3306, \n\t\tMASTER_CONNECT_RETRY=10, \n\t\tMASTER_AUTO_POSITION=1;\n\t",
      ?_⟩
    simp only [changeMaster, List.append_assoc]

/-! ## Credential resolver -/

theorem Reconcile_secret_error (w : World) (cluster : MysqlCluster) (e : GoError)
    (h : checkSecret w.secret = .error e) :
    (Reconcile (cycleEnv w) cluster).ranInfrastructure = false ∧
    (Reconcile (cycleEnv w) cluster).patches = [] ∧
    (Reconcile (cycleEnv w) cluster).ranReplication = false ∧
    (w.getErr = none → cluster.Status.Phase ≠ [] →
      (Reconcile (cycleEnv w) cluster).err = some e ∧
      (Reconcile (cycleEnv w) cluster).statusUpdates = []) := by
  have hs : (cycleEnv w).secretErr = some e := by simp [cycleEnv, h]
  have hg : (cycleEnv w).getErr = w.getErr := rfl
  unfold Reconcile
  rw [hs, hg]
  cases w.getErr with
  | some e' => simp
  | none =>
    by_cases hp : cluster.Status.Phase = []
    · simp only [hp, beq_self_eq_true, if_true]
      cases (cycleEnv w).statusUpdateErr <;> simp
    · have hp' : (cluster.Status.Phase == []) = false := by simpa using hp
      simp [hp']

/-- C18: for a credential object that the read returns, `checkSecret` returns an error
exactly when the key `root-password` or the key `repl-password` is absent from its data;
with both keys present, empty values included, it returns the two stored values as
(root password, replication password); and in a cycle where it fails, `Reconcile` does not
enter the infrastructure ensurer, patches no pod, does not run the replication configurator,
and (once the cluster is read and its phase set) returns that error without a status
update. -/
theorem checkSecret_fails_iff_key_absent (secret : Secret) :
    ((∃ e, checkSecret (.ok secret) = .error e) ↔
      (mapGet secret.Data rootPasswordKey = none ∨ mapGet secret.Data replPasswordKey = none)) ∧
    (∀ root repl, mapGet secret.Data rootPasswordKey = some root →
      mapGet secret.Data replPasswordKey = some repl →
      checkSecret (.ok secret) = .ok (root, repl)) ∧
    (∀ (w : World) (cluster : MysqlCluster) (e : GoError), checkSecret w.secret = .error e →
      (Reconcile (cycleEnv w) cluster).ranInfrastructure = false ∧
      (Reconcile (cycleEnv w) cluster).patches = [] ∧
      (Reconcile (cycleEnv w) cluster).ranReplication = false ∧
      (w.getErr = none → cluster.Status.Phase ≠ [] →
        (Reconcile (cycleEnv w) cluster).err = some e ∧
        (Reconcile (cycleEnv w) cluster).statusUpdates = [])) := by
  refine ⟨?_, ?_, fun w cluster e h => Reconcile_secret_error w cluster e h⟩
  · cases h1 : mapGet secret.Data rootPasswordKey with
    | none => simp [checkSecret, h1]
    | some root =>
      cases h2 : mapGet secret.Data replPasswordKey with
      | none => simp [checkSecret, h1, h2]
      | some repl => simp [checkSecret, h1, h2]
  · intro root repl h1 h2
    simp [checkSecret, h1, h2]

/-! ## Unset replica count -/

theorem getOrCreateStatefulSet_unset_replicas (env : StsEnv) (name h : GoString)
    (cluster : MysqlCluster) (existing : StatefulSet)
    (hget : env.get = .ok existing) (hd : cluster.Spec.Replicas = none) :
    (getOrCreateStatefulSet env name h cluster).result = .panic ∧
    (getOrCreateStatefulSet env name h cluster).calls = [] := by
  unfold getOrCreateStatefulSet
  simp only [hget, hd]
  rw [show reconcileHash existing h = ((reconcileHash existing h).1, (reconcileHash existing h).2)
    from rfl]
  simp only
  cases (reconcileHash existing h).1.Replicas <;> exact ⟨rfl, rfl⟩

/-- C19, what the code does: with the replica count unset, `createStatefulSet` and
`updateStatus` behave as under a spec of 3, but the update path of
`getOrCreateStatefulSet` dereferences the nil pointer: on an existing workload it panics and
issues no call, where a spec of 3 returns the workload. -/
theorem unset_replicas_panics_on_update_path :
    unsetReplicasCluster.Spec.Replicas = none ∧
    (∀ name h, createStatefulSet name h unsetReplicasCluster
      = createStatefulSet name h runningCluster) ∧
    (∀ snapshot, computeStatus unsetReplicasCluster snapshot
      = computeStatus runningCluster snapshot) ∧
    (getOrCreateStatefulSet exampleStsEnv exampleSts.Name exampleDigest
        unsetReplicasCluster).result = .panic ∧
    (getOrCreateStatefulSet exampleStsEnv exampleSts.Name exampleDigest
        unsetReplicasCluster).calls = [] ∧
    (getOrCreateStatefulSet exampleStsEnv exampleSts.Name exampleDigest
        runningCluster).result = .ok exampleSts := by
  refine ⟨rfl, fun _ _ => rfl, fun _ => rfl, by decide, by decide, by decide⟩

/-! ## Idempotence of the role reconciler -/

theorem keptMaster_healthy (masters : List PodInfo) (m : PodInfo)
    (h : keptMaster masters = some m) : (m.IsReady && m.IsConnectable) = true := by
  unfold keptMaster at h
  split at h
  · simp at h
  · split at h
    · next hh => simp at h; subst h; exact hh
    · simp at h
  · simp at h

theorem targetMaster_healthy (pods : List PodInfo) (t : PodInfo)
    (h : targetMaster pods = some t) : (t.IsReady && t.IsConnectable) = true := by
  unfold targetMaster at h
  split at h
  · simp at h
  · simp at h
  · next first second rest hc =>
    split at h
    · next m hk =>
      simp at h; subst h
      exact keptMaster_healthy _ _ hk
    · simp at h; subst h
      have := (elect_inv first (second :: rest)).1
      rw [← hc] at this
      exact (List.mem_filter.1 this).2

theorem patchLabels_noop (patchErr : Nat → Option GoError) (targetName : GoString) :
    ∀ (pods : List PodInfo) (i : Nat), (∀ p ∈ pods, p.Role = desiredRole targetName p) →
      patchLabels patchErr targetName i pods
        = { patched := false, err := none, pods := pods, calls := [] } := by
  intro pods
  induction pods with
  | nil => intro i _; rfl
  | cons pod rest ih =>
    intro i h
    have hp := h pod (List.mem_cons_self _ _)
    have hb : ¬ (pod.Role != desiredRole targetName pod) = true := by simp [hp]
    simp only [patchLabels, if_neg hb]
    rw [ih (i + 1) (fun q hq => h q (List.mem_cons_of_mem _ hq))]

theorem filter_name_singleton (t : PodInfo) (pods : List PodInfo)
    (hnd : (pods.map (fun p => p.Pod.Name)).Nodup) (hmem : t ∈ pods) :
    pods.filter (fun p => p.Pod.Name == t.Pod.Name) = [t] := by
  have hlen := filter_name_length_one t pods hnd hmem
  have hin : t ∈ pods.filter (fun p => p.Pod.Name == t.Pod.Name) :=
    List.mem_filter.2 ⟨hmem, by simp⟩
  obtain ⟨x, hx⟩ := List.length_eq_one.1 hlen
  rw [hx] at hin
  have : t = x := by simpa using hin
  rw [hx, this]

/-- The member of the next snapshot that comes from a member whose `Role` mirrored its
label: its `Role` is the desired one, everything else is as before. -/
theorem rebuild_relabel (targetName : GoString) (p : PodInfo)
    (hrole : p.Role = roleOfLabels p.Pod) :
    (rebuildMember (relabel targetName p)).Role = desiredRole targetName p := by
  have h := relabel_carries targetName p hrole
  simp only [rebuildMember, roleOfLabels, h]

theorem rebuild_relabel_fields (targetName : GoString) (p : PodInfo) :
    (rebuildMember (relabel targetName p)).Pod.Name = p.Pod.Name ∧
    (rebuildMember (relabel targetName p)).IsReady = p.IsReady ∧
    (rebuildMember (relabel targetName p)).IsConnectable = p.IsConnectable ∧
    (rebuildMember (relabel targetName p)).GTID = p.GTID := by
  unfold rebuildMember relabel
  split <;> simp [setRoleLabel]

/-- C20: on a snapshot with pairwise distinct pod names, at least two candidates and every
member's `Role` read from its label, once `reconcileRoles` has run with every patch
applied, a second run on the snapshot rebuilt from the patched labels (same readiness,
connectability and GTIDs) chooses a target of the same name, issues no patch and returns
(false, nil), whatever the patch results would be. -/
theorem reconcileRoles_idempotent (patchErr patchErr₂ : Nat → Option GoError)
    (snapshot : ClusterSnapshot)
    (hnames : (snapshot.Pods.map (fun p => p.Pod.Name)).Nodup)
    (hcand : 2 ≤ (candidates snapshot.Pods).length)
    (hrole : ∀ p ∈ snapshot.Pods, p.Role = roleOfLabels p.Pod)
    (hok : ∀ i, patchErr i = none) :
    ∃ target, targetMaster snapshot.Pods = some target ∧
      (reconcileRoles patchErr snapshot).err = none ∧
      (∃ target₂, targetMaster ((reconcileRoles patchErr snapshot).pods.map rebuildMember)
          = some target₂ ∧ target₂.Pod.Name = target.Pod.Name) ∧
      (reconcileRoles patchErr₂ { snapshot with
          Pods := (reconcileRoles patchErr snapshot).pods.map rebuildMember }).calls = [] ∧
      (reconcileRoles patchErr₂ { snapshot with
          Pods := (reconcileRoles patchErr snapshot).pods.map rebuildMember }).patched = false ∧
      (reconcileRoles patchErr₂ { snapshot with
          Pods := (reconcileRoles patchErr snapshot).pods.map rebuildMember }).err = none := by
  cases ht : targetMaster snapshot.Pods with
  | none =>
    have := (targetMaster_none_iff snapshot.Pods).1 ht
    omega
  | some target =>
    have hmem := targetMaster_mem _ _ ht
    have hhealthy := targetMaster_healthy _ _ ht
    obtain ⟨herr, hpods⟩ := patchLabels_ok patchErr target.Pod.Name hok snapshot.Pods 0
    have hrec : reconcileRoles patchErr snapshot
        = patchLabels patchErr target.Pod.Name 0 snapshot.Pods := by
      simp [reconcileRoles, ht]
    -- the rebuilt members
    have hreb : (reconcileRoles patchErr snapshot).pods.map rebuildMember
        = snapshot.Pods.map (fun p => rebuildMember (relabel target.Pod.Name p)) := by
      rw [hrec, hpods, List.map_map]; rfl
    -- candidates of the rebuilt snapshot
    have hcand₂ : candidates (snapshot.Pods.map
          (fun p => rebuildMember (relabel target.Pod.Name p)))
        = (candidates snapshot.Pods).map
          (fun p => rebuildMember (relabel target.Pod.Name p)) := by
      unfold candidates
      rw [List.filter_map]
      congr 1
      apply List.filter_congr
      intro p _
      obtain ⟨_, h2, h3, _⟩ := rebuild_relabel_fields target.Pod.Name p
      simp [Function.comp, h2, h3]
    -- current masters of the rebuilt snapshot
    have hmasters₂ : currentMasters (snapshot.Pods.map
          (fun p => rebuildMember (relabel target.Pod.Name p)))
        = [rebuildMember (relabel target.Pod.Name target)] := by
      unfold currentMasters
      rw [List.filter_map]
      have hcongr : snapshot.Pods.filter
            ((fun node : PodInfo => node.Role == master) ∘
              fun p => rebuildMember (relabel target.Pod.Name p))
          = snapshot.Pods.filter (fun p => p.Pod.Name == target.Pod.Name) := by
        apply List.filter_congr
        intro p hp
        simp only [Function.comp]
        rw [rebuild_relabel target.Pod.Name p (hrole p hp)]
        unfold desiredRole
        by_cases h : p.Pod.Name = target.Pod.Name
        · simp [h]
        · simp [h, master_ne_slave.symm]
      rw [hcongr, filter_name_singleton target snapshot.Pods hnames hmem]
      rfl
    have htarget₂ : targetMaster (snapshot.Pods.map
          (fun p => rebuildMember (relabel target.Pod.Name p)))
        = some (rebuildMember (relabel target.Pod.Name target)) := by
      obtain ⟨_, h2, h3, _⟩ := rebuild_relabel_fields target.Pod.Name target
      unfold targetMaster
      rw [hcand₂, hmasters₂]
      rcases hc : candidates snapshot.Pods with _ | ⟨first, _ | ⟨second, rest⟩⟩
      · rw [hc] at hcand; simp at hcand
      · rw [hc] at hcand; simp at hcand
      · simp [keptMaster, h2, h3, hhealthy]
    have hname₂ := (rebuild_relabel_fields target.Pod.Name target).1
    have hrec₂ : reconcileRoles patchErr₂ { snapshot with
          Pods := (reconcileRoles patchErr snapshot).pods.map rebuildMember }
        = { patched := false, err := none,
            pods := snapshot.Pods.map (fun p => rebuildMember (relabel target.Pod.Name p)),
            calls := [] } := by
      rw [hreb]
      simp only [reconcileRoles, htarget₂, hname₂]
      apply patchLabels_noop
      intro q hq
      obtain ⟨p, hp, rfl⟩ := List.mem_map.1 hq
      rw [rebuild_relabel target.Pod.Name p (hrole p hp)]
      unfold desiredRole
      rw [(rebuild_relabel_fields target.Pod.Name p).1]
    refine ⟨target, rfl, ?_, ?_, ?_, ?_, ?_⟩
    · rw [hrec]; exact herr
    · rw [hreb]
      exact ⟨_, htarget₂, hname₂⟩
    · rw [hrec₂]
    · rw [hrec₂]
    · rw [hrec₂]

/-- Scenario E2 meets the hypotheses of C20: after `c-0` is patched to slave and `c-1` to
master, the second run keeps `c-1` and patches nothing, also when patches would fail. -/
theorem reconcileRoles_idempotent_witness :
    (∃ target, targetMaster e2Snapshot.Pods = some target ∧
      (reconcileRoles (fun _ => none) e2Snapshot).err = none ∧
      (∃ target₂, targetMaster ((reconcileRoles (fun _ => none) e2Snapshot).pods.map
          rebuildMember) = some target₂ ∧ target₂.Pod.Name = target.Pod.Name) ∧
      (reconcileRoles (fun _ => some (.external 500)) { e2Snapshot with
          Pods := (reconcileRoles (fun _ => none) e2Snapshot).pods.map rebuildMember }).calls
        = [] ∧
      (reconcileRoles (fun _ => some (.external 500)) { e2Snapshot with
          Pods := (reconcileRoles (fun _ => none) e2Snapshot).pods.map rebuildMember }).patched
        = false ∧
      (reconcileRoles (fun _ => some (.external 500)) { e2Snapshot with
          Pods := (reconcileRoles (fun _ => none) e2Snapshot).pods.map rebuildMember }).err
        = none) ∧
    (targetMaster ((reconcileRoles (fun _ => none) e2Snapshot).pods.map rebuildMember)).map
      (fun t => t.Pod.Name) = some (str "c-1") :=
  ⟨reconcileRoles_idempotent (fun _ => none) (fun _ => some (.external 500)) e2Snapshot
    (by decide) (by decide) (by decide) (fun _ => rfl), by decide⟩

/-! ## The target master and the replication configurator -/

/-- A patch loop that returns (false, nil) found every `Role` as desired. -/
theorem patchLabels_false_nil (patchErr : Nat → Option GoError) (targetName : GoString) :
    ∀ (pods : List PodInfo) (i : Nat),
      (patchLabels patchErr targetName i pods).patched = false →
      (patchLabels patchErr targetName i pods).err = none →
      ∀ p ∈ pods, p.Role = desiredRole targetName p := by
  intro pods
  induction pods with
  | nil => intro i _ _ p hp; simp at hp
  | cons pod rest ih =>
    intro i hpat herr
    by_cases h : (pod.Role != desiredRole targetName pod) = true
    · simp only [patchLabels, if_pos h] at hpat herr
      cases hp : patchErr i with
      | some e => rw [hp] at herr; simp at herr
      | none =>
        rw [hp] at hpat herr
        simp only at hpat herr
        rw [herr] at hpat
        simp at hpat
    · simp only [patchLabels, if_neg h] at hpat herr
      have hrole : pod.Role = desiredRole targetName pod := by simpa using h
      intro p hp
      rcases List.mem_cons.1 hp with hp | hp
      · rw [hp]; exact hrole
      · exact ih (i + 1) hpat herr p hp

theorem find?_of_filter_singleton (q : PodInfo → Bool) (pods : List PodInfo) (t : PodInfo)
    (h : pods.filter q = [t]) : pods.find? q = some t := by
  rw [← List.filter_head?, h]
  rfl

theorem configurePod_err_ne_noMaster (db : DbSession) (p : PodInfo)
    (masterHost replPwd : GoString) :
    (configurePod db p masterHost replPwd).err ≠ some noMasterError := by
  unfold configurePod
  cases h1 : db.openErr with
  | some e => simp [noMasterError]
  | none =>
    cases h2 : db.pingErr with
    | some e => simp [noMasterError]
    | none =>
      simp only [ne_eq, Option.map_eq_some', not_exists, not_and]
      intro e _ he
      simp [noMasterError] at he

/-- C21: on a snapshot with pairwise distinct pod names, when `reconcileRoles` does not
return `ErrHA` its target master is a member of the snapshot that is ready and connectable;
and when it returns (false, nil) it left the snapshot as it was, the target is the one and
only member with `Role` master, and `reconcileDatabaseSettings` on that snapshot takes the
target as its master (the first member with `Role` master) and does not produce its error
for a snapshot without master. -/
theorem target_is_healthy_sole_master (patchErr : Nat → Option GoError)
    (snapshot : ClusterSnapshot) (cluster : MysqlCluster) (db : Pod → DbSession)
    (hnames : (snapshot.Pods.map (fun p => p.Pod.Name)).Nodup) :
    ((reconcileRoles patchErr snapshot).err ≠ some GoError.ErrHA →
      ∃ target, targetMaster snapshot.Pods = some target ∧ target ∈ snapshot.Pods ∧
        target.IsReady = true ∧ target.IsConnectable = true) ∧
    ((reconcileRoles patchErr snapshot).patched = false →
      (reconcileRoles patchErr snapshot).err = none →
      ∃ target, targetMaster snapshot.Pods = some target ∧
        (reconcileRoles patchErr snapshot).pods = snapshot.Pods ∧
        currentMasters snapshot.Pods = [target] ∧
        (∀ p ∈ snapshot.Pods, p.Role = master ↔ p = target) ∧
        (reconcileDatabaseSettings db
          { snapshot with Pods := (reconcileRoles patchErr snapshot).pods }
          cluster).targetMasterNode = some target ∧
        noMasterError ∉ (reconcileDatabaseSettings db
          { snapshot with Pods := (reconcileRoles patchErr snapshot).pods } cluster).errs) := by
  cases ht : targetMaster snapshot.Pods with
  | none =>
    have hrec : reconcileRoles patchErr snapshot
        = { patched := false, err := some .ErrHA, pods := snapshot.Pods, calls := [] } := by
      simp [reconcileRoles, ht]
    rw [hrec]
    exact ⟨fun h => absurd rfl h, fun _ h => by simp at h⟩
  | some target =>
    have hmem := targetMaster_mem _ _ ht
    have hhealthy := targetMaster_healthy _ _ ht
    simp only [Bool.and_eq_true] at hhealthy
    have hrec : reconcileRoles patchErr snapshot
        = patchLabels patchErr target.Pod.Name 0 snapshot.Pods := by
      simp [reconcileRoles, ht]
    refine ⟨fun _ => ⟨target, rfl, hmem, hhealthy.1, hhealthy.2⟩, ?_⟩
    intro hpat herr
    rw [hrec] at hpat herr
    have hroles := patchLabels_false_nil patchErr target.Pod.Name snapshot.Pods 0 hpat herr
    have hnoop := patchLabels_noop patchErr target.Pod.Name snapshot.Pods 0 hroles
    have hfilter : snapshot.Pods.filter (fun node => node.Role == master) = [target] := by
      have hcongr : snapshot.Pods.filter (fun node => node.Role == master)
          = snapshot.Pods.filter (fun p => p.Pod.Name == target.Pod.Name) := by
        apply List.filter_congr
        intro p hp
        rw [hroles p hp]
        unfold desiredRole
        by_cases h : p.Pod.Name = target.Pod.Name
        · simp [h]
        · simp [h, master_ne_slave.symm]
      rw [hcongr]
      exact filter_name_singleton target snapshot.Pods hnames hmem
    have hfind := find?_of_filter_singleton _ _ _ hfilter
    have hpods : (reconcileRoles patchErr snapshot).pods = snapshot.Pods := by
      rw [hrec, hnoop]
    refine ⟨target, rfl, hpods, hfilter, ?_, ?_, ?_⟩
    · intro p hp
      constructor
      · intro hr
        have : p ∈ snapshot.Pods.filter (fun node => node.Role == master) :=
          List.mem_filter.2 ⟨hp, by simp [hr]⟩
        rw [hfilter] at this
        simpa using this
      · intro he
        have : target ∈ snapshot.Pods.filter (fun node => node.Role == master) := by
          rw [hfilter]; simp
        rw [he]
        simpa using (List.mem_filter.1 this).2
    · rw [hpods]
      simp only [reconcileDatabaseSettings, hfind]
    · rw [hpods]
      simp only [reconcileDatabaseSettings, hfind, List.mem_filterMap, List.mem_map,
        List.mem_filter, not_exists, not_and]
      intro r hex herr'
      obtain ⟨p, _, hr⟩ := hex
      rw [← hr] at herr'
      exact configurePod_err_ne_noMaster _ _ _ _ herr'

/-- A converged pair, `c-1` master and `c-2` slave, meets the hypothesis of C21:
`reconcileRoles` returns (false, nil) and `reconcileDatabaseSettings` takes `c-1`. -/
theorem target_is_healthy_sole_master_witness :
    (((reconcileRoles (fun _ => none) keepSnapshot).err ≠ some GoError.ErrHA →
        ∃ target, targetMaster keepSnapshot.Pods = some target ∧ target ∈ keepSnapshot.Pods ∧
          target.IsReady = true ∧ target.IsConnectable = true) ∧
      ((reconcileRoles (fun _ => none) keepSnapshot).patched = false →
        (reconcileRoles (fun _ => none) keepSnapshot).err = none →
        ∃ target, targetMaster keepSnapshot.Pods = some target ∧
          (reconcileRoles (fun _ => none) keepSnapshot).pods = keepSnapshot.Pods ∧
          currentMasters keepSnapshot.Pods = [target] ∧
          (∀ p ∈ keepSnapshot.Pods, p.Role = master ↔ p = target) ∧
          (reconcileDatabaseSettings freshDb
            { keepSnapshot with Pods := (reconcileRoles (fun _ => none) keepSnapshot).pods }
            runningCluster).targetMasterNode = some target ∧
          noMasterError ∉ (reconcileDatabaseSettings freshDb
            { keepSnapshot with Pods := (reconcileRoles (fun _ => none) keepSnapshot).pods }
            runningCluster).errs)) ∧
    (reconcileRoles (fun _ => none) keepSnapshot).patched = false ∧
    (reconcileRoles (fun _ => none) keepSnapshot).err = none ∧
    (reconcileDatabaseSettings freshDb keepSnapshot runningCluster).targetMasterNode
      = some keepC1 :=
  ⟨target_is_healthy_sole_master (fun _ => none) keepSnapshot runningCluster freshDb
    (by decide), by decide, by decide, by decide⟩

/-! ## The phase derivation as a step -/

theorem nextPhase_eq (cluster : MysqlCluster) (snapshot : ClusterSnapshot) (phase : GoString) :
    nextPhase cluster snapshot phase =
      if !timeIsZero cluster.DeletionTimestamp then MysqlClusterPhaseTerminating
      else if isBootstrapped phase then nextPhase cluster snapshot MysqlClusterPhaseRunning
      else if (statusLoop snapshot.Pods).masterCount ≥ 1 &&
          (statusLoop snapshot.Pods).slaveCount ≥ 1 then MysqlClusterPhaseDegraded
      else if snapshot.Pods.length == 0 then MysqlClusterPhaseInitializing
      else MysqlClusterPhasePending := by
  have hR : isBootstrapped MysqlClusterPhaseRunning = true := by decide
  unfold nextPhase derivePhase
  simp only [hR]
  by_cases hdel : timeIsZero cluster.DeletionTimestamp = true
  · simp only [hdel, Bool.not_true, Bool.false_eq_true, if_false, if_true]
    rfl
  · have hdel' : timeIsZero cluster.DeletionTimestamp = false := by simpa using hdel
    simp [hdel']

/-- C22: for a fixed cluster object (deletion state, desired replica count) and a fixed
snapshot, the phase derivation of `updateStatus`, seen as a step from the observed phase to
the derived one, satisfies step (step (step p)) = step (step p) for every phase string `p`,
the empty one included; step (step p) = step p can fail: a cluster of two desired replicas
in a startup phase that observes a connectable master and a connectable slave goes to
Degraded and from there to Running. -/
theorem phase_stabilises_after_two_steps :
    (∀ (cluster : MysqlCluster) (snapshot : ClusterSnapshot) (p : GoString),
      nextPhase cluster snapshot (nextPhase cluster snapshot (nextPhase cluster snapshot p))
        = nextPhase cluster snapshot (nextPhase cluster snapshot p)) ∧
    (∀ (cluster : MysqlCluster) (snapshot : ClusterSnapshot) (p : GoString),
      (computeStatus { cluster with Status := { cluster.Status with Phase := p } }
        snapshot).Phase = nextPhase cluster snapshot p) ∧
    nextPhase twoReplicaCluster keepSnapshot MysqlClusterPhaseInitializing
      = MysqlClusterPhaseDegraded ∧
    nextPhase twoReplicaCluster keepSnapshot MysqlClusterPhaseDegraded
      = MysqlClusterPhaseRunning ∧
    nextPhase twoReplicaCluster keepSnapshot
        (nextPhase twoReplicaCluster keepSnapshot MysqlClusterPhaseInitializing)
      ≠ nextPhase twoReplicaCluster keepSnapshot MysqlClusterPhaseInitializing ∧
    nextPhase twoReplicaCluster keepSnapshot
        (nextPhase twoReplicaCluster keepSnapshot [])
      ≠ nextPhase twoReplicaCluster keepSnapshot [] := by
  refine ⟨?_, fun _ _ _ => rfl, by decide, by decide, by decide, by decide⟩
  intro cluster snapshot p
  have hD : isBootstrapped MysqlClusterPhaseDegraded = true := by decide
  have hI : isBootstrapped MysqlClusterPhaseInitializing = false := by decide
  have hP : isBootstrapped MysqlClusterPhasePending = false := by decide
  by_cases hdel : timeIsZero cluster.DeletionTimestamp = true
  · -- the phase derived from a bootstrapped phase is bootstrapped and is a fixed point
    have hA : isBootstrapped (nextPhase cluster snapshot MysqlClusterPhaseRunning) = true :=
      (isBootstrapped_iff _).2
        (derivePhase_adult { cluster with
            Status := { cluster.Status with Phase := MysqlClusterPhaseRunning } }
          snapshot hdel (Or.inl rfl))
    have hfix : ∀ q, isBootstrapped q = true →
        nextPhase cluster snapshot q = nextPhase cluster snapshot MysqlClusterPhaseRunning := by
      intro q hq
      rw [nextPhase_eq cluster snapshot q]
      simp [hdel, hq]
    by_cases hb : isBootstrapped p = true
    · rw [hfix p hb, hfix _ hA, hfix _ hA]
    · have hb' : isBootstrapped p = false := by simpa using hb
      rw [nextPhase_eq cluster snapshot p]
      simp only [hdel, Bool.not_true, Bool.false_eq_true, if_false, hb']
      by_cases hms : ((statusLoop snapshot.Pods).masterCount ≥ 1 &&
          (statusLoop snapshot.Pods).slaveCount ≥ 1) = true
      · rw [if_pos hms, hfix _ hD, hfix _ hA]
      · rw [if_neg hms]
        by_cases h0 : (snapshot.Pods.length == 0) = true
        · rw [if_pos h0]
          have hI' : nextPhase cluster snapshot MysqlClusterPhaseInitializing
              = MysqlClusterPhaseInitializing := by
            rw [nextPhase_eq]
            simp only [hdel, Bool.not_true, Bool.false_eq_true, if_false, hI, if_neg hms,
              if_pos h0]
          rw [hI', hI']
        · rw [if_neg h0]
          have hP' : nextPhase cluster snapshot MysqlClusterPhasePending
              = MysqlClusterPhasePending := by
            rw [nextPhase_eq]
            simp only [hdel, Bool.not_true, Bool.false_eq_true, if_false, hP, if_neg hms,
              if_neg h0]
          rw [hP', hP']
  · have hdel' : timeIsZero cluster.DeletionTimestamp = false := by simpa using hdel
    have hT : ∀ q, nextPhase cluster snapshot q = MysqlClusterPhaseTerminating := by
      intro q
      rw [nextPhase_eq]
      simp [hdel']
    rw [hT, hT]

end MysqlOperator
